import Mathlib

/-
Verification of the speedata vscode extension's core engine against its
natural-language specification.  The TypeScript sources are shallowly
embedded: JS strings become `List Char`, JS arrays become `List`,
`Map` becomes an association list, mutable loop state becomes explicit
state records, and the `while` loops (whose index strictly increases on
every executed branch for the inputs of interest) become fuel-based
recursion with fuel `text.length + 1`.
-/

namespace Speedata

/-- Shorthand for the embedding of a JavaScript string. -/
abbrev Str := List Char

/-- Coerce a Lean string literal into the `List Char` embedding. -/
def cs (s : String) : Str := s.data

/-- Embedding of `text[i]`: JS out-of-range indexing yields `undefined`;
all character comparisons performed against it in the sources are false,
which the NUL default reproduces (NUL never occurs in the inputs nor in
any character class tested by the sources). -/
def chAt (t : Str) (i : Nat) : Char := t.getD i (Char.ofNat 0)

/-- The double-quote character. -/
def quoteD : Char := '"'

/-- The single-quote character. -/
def quoteS : Char := '\''

/-- Embedding of `text.startsWith(pat, i)`. -/
def startsWithAt (t pat : Str) (i : Nat) : Bool := pat.isPrefixOf (t.drop i)

/-- Embedding of `text.substring(a, b)` for `a ≤ b` (the only way the
sources call it). -/
def substr (t : Str) (a b : Nat) : Str := (t.drop a).take (b - a)

/-- Embedding of `text.indexOf(pat, i)`; `none` stands for `-1`. -/
def indexOfAux (pat : Str) : Str → Nat → Option Nat
  | [], k => if pat = [] then some k else none
  | c :: rest, k =>
    if pat.isPrefixOf (c :: rest) then some k else indexOfAux pat rest (k + 1)

/-- Absolute index of the first occurrence of `pat` at or after `i`. -/
def indexOfFrom (t pat : Str) (i : Nat) : Option Nat := indexOfAux pat (t.drop i) i

/-- Embedding of `isWhitespace` from formattingProvider.ts. -/
def isWhitespace (ch : Char) : Bool :=
  ch = ' ' || ch = '\t' || ch = '\n' || ch = '\r'

/-- Embedding of `isNameStartChar` from formattingProvider.ts. -/
def isNameStartChar (ch : Char) : Bool :=
  (('a' ≤ ch && ch ≤ 'z') || ('A' ≤ ch && ch ≤ 'Z') || ch = '_')

/-- JS regex class `\w` = `[A-Za-z0-9_]`. -/
def isWordChar (ch : Char) : Bool :=
  ('a' ≤ ch && ch ≤ 'z') || ('A' ≤ ch && ch ≤ 'Z') ||
  ('0' ≤ ch && ch ≤ '9') || ch = '_'

/-- Character class `[\w:.-]` used by the name regexes of the sources. -/
def isNameChar (ch : Char) : Bool :=
  isWordChar ch || ch = ':' || ch = '.' || ch = '-'

/-- Embedding of `trim()` (the sources only trim ASCII whitespace). -/
def trimStr (s : Str) : Str :=
  ((s.dropWhile isWhitespace).reverse.dropWhile isWhitespace).reverse

/-- Embedding of `Array.prototype.join('')` on a list of string pieces. -/
def joinAll (l : List Str) : Str := l.flatten

/- ===================== formattingProvider.ts ===================== -/

/-- The `PRESERVED_ELEMENTS` set of formattingProvider.ts. -/
def fmtPRESERVED_ELEMENTS : List Str := [cs "Value"]

/-- The `SECTION_ELEMENTS` set of formattingProvider.ts. -/
def SECTION_ELEMENTS : List Str := [cs "Section"]

/-- Embedding of the `FormattingOptions` consumed by `formatXml`. -/
structure FormattingOptions where
  insertSpaces : Bool
  tabSize : Nat
deriving DecidableEq

/-- Embedding of `findTagEnd`: scan from `start+1` for the first
unquoted `>`; `none` stands for `-1`. -/
def findTagEndAux (t : Str) (inQuote : Option Char) : Nat → Nat → Option Nat
  | 0, _ => none
  | fuel + 1, i =>
    if i < t.length then
      let ch := chAt t i
      match inQuote with
      | some q =>
        if ch = q then findTagEndAux t none fuel (i + 1)
        else findTagEndAux t (some q) fuel (i + 1)
      | none =>
        if ch = quoteD || ch = quoteS then findTagEndAux t (some ch) fuel (i + 1)
        else if ch = '>' then some i
        else findTagEndAux t none fuel (i + 1)
    else none

/-- Embedding of `findTagEnd(text, start)`. -/
def findTagEnd (t : Str) (start : Nat) : Option Nat :=
  findTagEndAux t none (t.length + 1) (start + 1)

/-- Embedding of `extractTagName`: longest prefix up to whitespace,
`>` or `/`. -/
def extractTagName (s : Str) : Str :=
  s.takeWhile (fun c => !isWhitespace c && c ≠ '>' && c ≠ '/')

/-- Embedding of `indentStr`. -/
def indentStr (indent : Str) (depth : Nat) : Str :=
  joinAll (List.replicate depth indent)

/-- Embedding of `normalizeSelfClosingTag`:
`tag.replace(/\s*\/>$/, ' />')`. -/
def normalizeSelfClosingTag (tag : Str) : Str :=
  if tag.reverse.take 2 = ['>', '/'] then
    ((tag.dropLast.dropLast).reverse.dropWhile isWhitespace).reverse ++ cs " />"
  else tag

/-- Embedding of `hasBlankLineAfter`: is there a blank line (two
newlines) between `pos` and the next non-whitespace character? -/
def hasBlankAfterAux : Str → Nat → Bool
  | [], _ => false
  | c :: rest, n =>
    if c = '\n' then
      if n + 1 ≥ 2 then true else hasBlankAfterAux rest (n + 1)
    else if !isWhitespace c then false
    else hasBlankAfterAux rest n

/-- Embedding of `hasBlankLineAfter(text, pos)`. -/
def hasBlankLineAfter (t : Str) (pos : Nat) : Bool :=
  hasBlankAfterAux (t.drop pos) 0

/-- Embedding of `isBlankLineDepth`: blank lines are inserted between
siblings at depth 1, or at depth 2 inside a `Section`. -/
def isBlankLineDepth (depth : Nat) (elementStack : List Str) : Bool :=
  if depth = 1 then true
  else if depth = 2 && elementStack.length ≥ 1 &&
      (match elementStack.getLast? with
       | some s => SECTION_ELEMENTS.contains s
       | none => false) then true
  else false

/-- Embedding of `capturePreservedContent`: scan for the matching close
tag of a preserved element, tracking nesting of same-named opens. -/
def capturePreservedAux (t : Str) (closeTag openPat : Str) (startIndex : Nat) :
    Nat → Nat → Nat → Option (Str × Nat)
  | 0, _, _ => none
  | fuel + 1, depth, i =>
    if i < t.length then
      if startsWithAt t closeTag i then
        if depth - 1 = 0 then
          some (substr t startIndex i, i + closeTag.length)
        else capturePreservedAux t closeTag openPat startIndex fuel (depth - 1) (i + closeTag.length)
      else if startsWithAt t openPat i then
        let afterName := i + openPat.length
        if afterName < t.length &&
            (chAt t afterName = ' ' || chAt t afterName = '>' || chAt t afterName = '/' ||
             chAt t afterName = '\t' || chAt t afterName = '\n' || chAt t afterName = '\r') then
          match findTagEnd t i with
          | some tagEnd =>
            let tag := substr t i (tagEnd + 1)
            if tag.reverse.take 2 = ['>', '/'] then
              capturePreservedAux t closeTag openPat startIndex fuel depth (tagEnd + 1)
            else
              capturePreservedAux t closeTag openPat startIndex fuel (depth + 1) (tagEnd + 1)
          | none => capturePreservedAux t closeTag openPat startIndex fuel depth (i + 1)
        else capturePreservedAux t closeTag openPat startIndex fuel depth (i + 1)
      else capturePreservedAux t closeTag openPat startIndex fuel depth (i + 1)
    else none

/-- Embedding of `capturePreservedContent(text, startIndex, closeTag)`. -/
def capturePreservedContent (t : Str) (startIndex : Nat) (closeTag : Str) :
    Option (Str × Nat) :=
  let tagName := substr closeTag 2 (closeTag.length - 1)
  let openPat := '<' :: tagName
  capturePreservedAux t closeTag openPat startIndex (t.length + 1) 1 startIndex

/-- Mutable state of the `formatXml` main loop. -/
structure FmtState where
  i : Nat
  depth : Nat
  preserveDepth : Nat
  elementStack : List Str
  pendingBlank : Bool
  prevSiblingSelfClosing : Bool
  commentBuffer : List Str
  out : List Str
deriving DecidableEq

/-- Embedding of the closure `flushBeforeElement` of `formatXml`: the
exact list of strings it pushes onto `out` (the comment buffer is reset
to empty by every call). -/
def flushBeforeElement (depth : Nat) (elementStack : List Str)
    (pendingBlank prevSiblingSelfClosing : Bool) (commentBuffer : List Str)
    (currentIsSelfClosing : Bool) : List Str :=
  if !isBlankLineDepth depth elementStack then
    commentBuffer
  else
    let bothSelfClosing := prevSiblingSelfClosing && currentIsSelfClosing
    (if pendingBlank && !bothSelfClosing then [cs "\n"] else []) ++ commentBuffer

/-- One-to-one embedding of the `while` loop of `formatXml`
(formattingProvider.ts lines 57–254).  Every executed branch advances
`i`, so fuel `text.length + 1` never runs out on inputs that reach the
normal exit (an input placing a `<` that starts no recognized construct
in text content would loop forever in the source; here it exhausts the
fuel and returns the output accumulated so far). -/
def formatLoop (text indent : Str) : Nat → FmtState → List Str
  | 0, st => st.out ++ st.commentBuffer
  | fuel + 1, st =>
    if st.i < text.length then
      -- Skip whitespace between tokens (when not preserving)
      if st.preserveDepth = 0 && isWhitespace (chAt text st.i) then
        formatLoop text indent fuel { st with i := st.i + 1 }
      -- Processing instruction: <?...?>
      else if startsWithAt text (cs "<?") st.i then
        match indexOfFrom text (cs "?>") st.i with
        | none => (st.out ++ [text.drop st.i]) ++ st.commentBuffer
        | some e =>
          let pi := substr text st.i (e + 2)
          formatLoop text indent fuel
            { st with i := e + 2,
                      out := st.out ++ (if st.preserveDepth > 0 then [pi] else [pi, cs "\n"]) }
      -- Comment: <!--...-->
      else if startsWithAt text (cs "<!--") st.i then
        match indexOfFrom text (cs "-->") st.i with
        | none =>
          (st.out ++ [if st.preserveDepth > 0 then text.drop st.i
                      else indentStr indent st.depth ++ text.drop st.i]) ++ st.commentBuffer
        | some e =>
          let comment := substr text st.i (e + 3)
          if st.preserveDepth > 0 then
            formatLoop text indent fuel { st with i := e + 3, out := st.out ++ [comment] }
          else if isBlankLineDepth st.depth st.elementStack then
            if hasBlankLineAfter text (e + 3) then
              let flushed := flushBeforeElement st.depth st.elementStack st.pendingBlank
                st.prevSiblingSelfClosing st.commentBuffer false
              formatLoop text indent fuel
                { st with i := e + 3,
                          commentBuffer := [],
                          out := st.out ++ flushed ++ [indentStr indent st.depth ++ comment ++ cs "\n"],
                          pendingBlank := true,
                          prevSiblingSelfClosing := false }
            else
              formatLoop text indent fuel
                { st with i := e + 3,
                          commentBuffer := st.commentBuffer ++ [indentStr indent st.depth ++ comment ++ cs "\n"] }
          else
            formatLoop text indent fuel
              { st with i := e + 3,
                        out := st.out ++ [indentStr indent st.depth ++ comment ++ cs "\n"] }
      -- CDATA: <![CDATA[...]]>
      else if startsWithAt text (cs "<![CDATA[") st.i then
        match indexOfFrom text (cs "]]>") st.i with
        | none =>
          (st.out ++ [if st.preserveDepth > 0 then text.drop st.i
                      else indentStr indent st.depth ++ text.drop st.i]) ++ st.commentBuffer
        | some e =>
          let cdata := substr text st.i (e + 3)
          formatLoop text indent fuel
            { st with i := e + 3,
                      out := st.out ++ [if st.preserveDepth > 0 then cdata
                                        else indentStr indent st.depth ++ cdata ++ cs "\n"] }
      -- Closing tag: </...>
      else if startsWithAt text (cs "</") st.i then
        match indexOfFrom text (cs ">") st.i with
        | none => (st.out ++ [text.drop st.i]) ++ st.commentBuffer
        | some e =>
          let tag := substr text st.i (e + 1)
          let tagName := extractTagName (tag.drop 2)
          if st.preserveDepth > 0 then
            if fmtPRESERVED_ELEMENTS.contains tagName && st.preserveDepth - 1 = 0 then
              formatLoop text indent fuel
                { st with i := e + 1,
                          preserveDepth := 0,
                          depth := st.depth - 1,
                          elementStack := st.elementStack.dropLast,
                          out := st.out ++ [indentStr indent (st.depth - 1) ++ tag ++ cs "\n"],
                          pendingBlank := true,
                          prevSiblingSelfClosing := false }
            else
              formatLoop text indent fuel
                { st with i := e + 1,
                          preserveDepth := if fmtPRESERVED_ELEMENTS.contains tagName
                                           then st.preserveDepth - 1 else st.preserveDepth,
                          out := st.out ++ [tag] }
          else
            formatLoop text indent fuel
              { st with i := e + 1,
                        depth := st.depth - 1,
                        elementStack := st.elementStack.dropLast,
                        commentBuffer := [],
                        out := st.out ++ st.commentBuffer ++ [indentStr indent (st.depth - 1) ++ tag ++ cs "\n"],
                        pendingBlank := true,
                        prevSiblingSelfClosing := false }
      -- Opening or self-closing tag
      else if chAt text st.i = '<' && st.i + 1 < text.length && isNameStartChar (chAt text (st.i + 1)) then
        match findTagEnd text st.i with
        | none => (st.out ++ [text.drop st.i]) ++ st.commentBuffer
        | some e =>
          let tag := substr text st.i (e + 1)
          let tagName := extractTagName (tag.drop 1)
          let selfClosing := tag.reverse.take 2 = ['>', '/']
          if st.preserveDepth > 0 then
            formatLoop text indent fuel
              { st with i := e + 1,
                        preserveDepth := if !selfClosing && fmtPRESERVED_ELEMENTS.contains tagName
                                         then st.preserveDepth + 1 else st.preserveDepth,
                        out := st.out ++ [tag] }
          else if selfClosing then
            let flushed := flushBeforeElement st.depth st.elementStack st.pendingBlank
              st.prevSiblingSelfClosing st.commentBuffer true
            formatLoop text indent fuel
              { st with i := e + 1,
                        commentBuffer := [],
                        out := st.out ++ flushed ++ [indentStr indent st.depth ++ normalizeSelfClosingTag tag ++ cs "\n"],
                        pendingBlank := true,
                        prevSiblingSelfClosing := true }
          else if fmtPRESERVED_ELEMENTS.contains tagName then
            let flushed := flushBeforeElement st.depth st.elementStack st.pendingBlank
              st.prevSiblingSelfClosing st.commentBuffer false
            let closeTag := cs "</" ++ tagName ++ cs ">"
            match capturePreservedContent text (e + 1) closeTag with
            | some (content, endIndex) =>
              formatLoop text indent fuel
                { st with i := endIndex,
                          commentBuffer := [],
                          out := st.out ++ flushed ++ [indentStr indent st.depth ++ tag ++ content ++ closeTag ++ cs "\n"],
                          pendingBlank := true,
                          prevSiblingSelfClosing := false }
            | none =>
              formatLoop text indent fuel
                { st with i := e + 1,
                          commentBuffer := [],
                          out := st.out ++ flushed ++ [indentStr indent st.depth ++ tag ++ cs "\n"],
                          elementStack := st.elementStack ++ [tagName],
                          depth := st.depth + 1,
                          pendingBlank := false,
                          prevSiblingSelfClosing := false }
          else
            let flushed := flushBeforeElement st.depth st.elementStack st.pendingBlank
              st.prevSiblingSelfClosing st.commentBuffer false
            formatLoop text indent fuel
              { st with i := e + 1,
                        commentBuffer := [],
                        out := st.out ++ flushed ++ [indentStr indent st.depth ++ tag ++ cs "\n"],
                        elementStack := st.elementStack ++ [tagName],
                        depth := st.depth + 1,
                        pendingBlank := false,
                        prevSiblingSelfClosing := false }
      -- Text content (single character copy when preserving)
      else if st.preserveDepth > 0 then
        formatLoop text indent fuel { st with i := st.i + 1, out := st.out ++ [[chAt text st.i]] }
      else
        let run := (text.drop st.i).takeWhile (fun c => c ≠ '<')
        let trimmed := trimStr run
        formatLoop text indent fuel
          { st with i := st.i + run.length,
                    out := st.out ++ (if trimmed.length > 0
                                      then [indentStr indent st.depth ++ trimmed ++ cs "\n"] else []) }
    else st.out ++ st.commentBuffer

/-- Embedding of `result.replace(/\n\n(\s*<\/)/g, '\n$1')`: each blank
line immediately preceding (through whitespace) a closing tag loses one
newline; scanning resumes after each match, exactly as a global regex
replace does. -/
def replaceBlankClose : Nat → Str → Str
  | 0, s => s
  | fuel + 1, s =>
    match s with
    | [] => []
    | c :: rest =>
      if c = '\n' && rest.headD (Char.ofNat 0) = '\n' then
        let tail2 := rest.tail
        let ws := tail2.takeWhile isWhitespace
        let after := tail2.drop ws.length
        if after.headD (Char.ofNat 0) = '<' && after.tail.headD (Char.ofNat 0) = '/' then
          '\n' :: (ws ++ '<' :: '/' :: replaceBlankClose fuel (after.tail.tail))
        else c :: replaceBlankClose fuel rest
      else c :: replaceBlankClose fuel rest

/-- Embedding of `result.replace(/\n+$/, '\n')`. -/
def fixTrailingNewlines (s : Str) : Str :=
  let r := s.reverse
  let n := r.takeWhile (fun c => c = '\n')
  if n = [] then s else ((r.drop n.length).reverse) ++ [('\n' : Char)]

/-- Embedding of `formatXml(text, options)` (formattingProvider.ts
lines 19–266). -/
def formatXml (text : Str) (options : FormattingOptions) : Str :=
  let indent := if options.insertSpaces then joinAll (List.replicate options.tabSize (cs " "))
                else cs "\t"
  let out := formatLoop text indent (text.length + 1)
    { i := 0, depth := 0, preserveDepth := 0, elementStack := [],
      pendingBlank := false, prevSiblingSelfClosing := false,
      commentBuffer := [], out := [] }
  let result := joinAll out
  let result := replaceBlankClose result.length result
  fixTrailingNewlines result

/- ===================== contentModel.ts ===================== -/

/-- Embedding of an allowed-value entry of `AttributeDeclaration`. -/
structure ValueEntry where
  value : Str
  documentation : Option Str
deriving DecidableEq

/-- Embedding of `AttributeDeclaration` (contentModel.ts). -/
structure AttributeDeclaration where
  name : Str
  documentation : Str
  required : Bool
  values : Option (List ValueEntry)
  pattern : Option Str
deriving DecidableEq

/-- Embedding of `ElementDeclaration` (contentModel.ts). -/
structure ElementDeclaration where
  name : Str
  documentation : Str
  attributes : List AttributeDeclaration
  allowedChildren : List Str
  allowsText : Bool
deriving DecidableEq

/-- Embedding of `ContentModel` (contentModel.ts); the `elements` Map
becomes an association list in insertion order. -/
structure ContentModel where
  elements : List (Str × ElementDeclaration)
  ns : Str
deriving DecidableEq

/-- Embedding of `Map.get`. -/
def mapGet {α : Type} (m : List (Str × α)) (k : Str) : Option α :=
  (m.find? (fun p => p.1 = k)).map (·.2)

/-- Embedding of `Map.has`. -/
def mapHas {α : Type} (m : List (Str × α)) (k : Str) : Bool :=
  (m.find? (fun p => p.1 = k)).isSome

/-- Embedding of `Map.set`: replace in place if the key exists,
otherwise append (JS Maps keep the original insertion position). -/
def mapSet {α : Type} (m : List (Str × α)) (k : Str) (v : α) : List (Str × α) :=
  match m with
  | [] => [(k, v)]
  | (k0, v0) :: rest => if k0 = k then (k, v) :: rest else (k0, v0) :: mapSet rest k v

/- ===================== LSP diagnostic shapes ===================== -/

/-- Embedding of an LSP `Position`. -/
structure Pos where
  line : Nat
  character : Nat
deriving DecidableEq

/-- Embedding of an LSP `Range` (fields `start`/`end` of the source;
`end` is a Lean keyword, hence `endPos`). -/
structure Rng where
  startPos : Pos
  endPos : Pos
deriving DecidableEq

/-- Embedding of `DiagnosticSeverity.Error` / `.Warning`. -/
inductive Severity where
  | error
  | warning
deriving DecidableEq

/-- Embedding of an LSP `Diagnostic` as produced by the validator. -/
structure Diagnostic where
  severity : Severity
  range : Rng
  message : Str
  source : Str
deriving DecidableEq

/-- Embedding of `createRange(line, character, length)`. -/
def createRange (line character length : Nat) : Rng :=
  { startPos := { line := line, character := character },
    endPos := { line := line, character := character + length } }

/-- Embedding of `TextDocument.positionAt(offset)`: line = number of
newlines before the offset, character = distance from the last one. -/
def positionAt (text : Str) (offset : Nat) : Pos :=
  let pre := text.take offset
  { line := pre.count '\n',
    character := (pre.reverse.takeWhile (fun c => c ≠ '\n')).length }

/- ===================== customConstraints.ts ===================== -/

/-- Embedding of `CustomDiagnostic` (severity is the literal string
`"error"` or `"warning"`, as in the source). -/
structure CustomDiagnostic where
  message : Str
  severity : Str
deriving DecidableEq

/-- Embedding of `DefineColorRule`. -/
structure DefineColorRule where
  required : List Str
  forbidden : List Str
deriving DecidableEq

/-- Embedding of the `defineColorRules` record (customConstraints.ts). -/
def defineColorRules (model : Str) : Option DefineColorRule :=
  if model = cs "cmyk" then
    some { required := [cs "c", cs "m", cs "y", cs "k"],
           forbidden := [cs "r", cs "g", cs "b", cs "value", cs "colorname"] }
  else if model = cs "rgb" then
    some { required := [cs "r", cs "g", cs "b"],
           forbidden := [cs "c", cs "m", cs "y", cs "k", cs "value", cs "colorname"] }
  else if model = cs "RGB" then
    some { required := [cs "r", cs "g", cs "b"],
           forbidden := [cs "c", cs "m", cs "y", cs "k", cs "value", cs "colorname"] }
  else if model = cs "gray" then
    some { required := [cs "g"],
           forbidden := [cs "r", cs "b", cs "c", cs "m", cs "y", cs "k", cs "value", cs "colorname"] }
  else if model = cs "spotcolor" then
    some { required := [cs "colorname"],
           forbidden := [cs "r", cs "g", cs "b", cs "value"] }
  else if model = cs "" then
    some { required := [cs "value"],
           forbidden := [cs "r", cs "g", cs "b", cs "c", cs "m", cs "y", cs "k", cs "colorname"] }
  else none

/-- Embedding of `validateDefineColor`. -/
def validateDefineColor (attributes : List (Str × Str)) : List CustomDiagnostic :=
  let model := (mapGet attributes (cs "model")).getD (cs "")
  match defineColorRules model with
  | none => []
  | some rule =>
    let shown := if model = [] then cs "(empty)" else model
    (rule.required.filterMap fun req =>
      if !mapHas attributes req then
        some { message := cs "Required attribute \"" ++ req ++ cs "\" is missing for model=\"" ++
                 shown ++ cs "\"",
               severity := cs "error" }
      else none) ++
    (rule.forbidden.filterMap fun forb =>
      if mapHas attributes forb then
        some { message := cs "Attribute \"" ++ forb ++ cs "\" is not allowed for model=\"" ++
                 shown ++ cs "\"",
               severity := cs "warning" }
      else none)

/-- Embedding of `validateValue` (the `Value` custom rule). -/
def validateValueRule (attributes : List (Str × Str)) (hasChildren : Bool) : List CustomDiagnostic :=
  if mapHas attributes (cs "select") && hasChildren then
    [{ message := cs "Value must have either child elements or the select attribute, not both",
       severity := cs "warning" }]
  else []

/-- Embedding of `validateCustomConstraints`. -/
def validateCustomConstraints (elementName : Str) (attributes : List (Str × Str))
    (hasChildren : Bool) : List CustomDiagnostic :=
  (if elementName = cs "DefineColor" then validateDefineColor attributes else []) ++
  (if elementName = cs "Value" then validateValueRule attributes hasChildren else [])

/- ===================== diagnostics (src/unnamed/part_000) ===================== -/

/-- Per-attribute position info of `TagInfo.attributes`. -/
structure AttrInfo where
  value : Str
  line : Nat
  character : Nat
deriving DecidableEq

/-- Embedding of `TagInfo` (a closing tag's `name` carries the leading
`/`, exactly as the tag regex captures it). -/
structure TagInfo where
  name : Str
  line : Nat
  character : Nat
  attributes : List (Str × AttrInfo)
  selfClosing : Bool
deriving DecidableEq

/-- The validator's `PRESERVED_ELEMENTS` set. -/
def valPRESERVED_ELEMENTS : List Str := [cs "Value"]

/-- Models the host primitive `new RegExp('^(?:' + pattern + ')$').test`:
`some f` when the pattern compiles (with `f value` the anchored
whole-value test), `none` when the RegExp constructor throws on a
malformed pattern.  The regex engine itself is a JavaScript runtime
facility, not code of this repository. -/
abbrev RegexTester := Str → Option (Str → Bool)

/-- Embedding of `join(', ')`. -/
def joinComma : List Str → Str
  | [] => []
  | x :: xs => x ++ joinAll (xs.map (fun s => cs ", " ++ s))

/-- Embedding of the allowed-values/pattern check for one present,
declared attribute (part_000 lines 176–204): skipped entirely unless the
declaration lists values, the list is non-empty, and the literal value
is truthy (non-empty); an out-of-list value is tested against the
declared pattern when one is truthy — `if (attrDecl.pattern)` is falsy
both for an absent pattern and for the empty string, which fall to the
Allowed-values warning — and a pattern whose compilation throws skips
the check silently. -/
def attrValueCheck (compile : RegexTester) (attrDecl : AttributeDeclaration)
    (attrName : Str) (attrInfo : AttrInfo) : List Diagnostic :=
  match attrDecl.values with
  | none => []
  | some vals =>
    if vals.length > 0 && attrInfo.value ≠ [] then
      let allowedVals := vals.map (·.value)
      if !allowedVals.contains attrInfo.value then
        let allowedWarn : List Diagnostic :=
          [{ severity := Severity.warning,
             range := createRange attrInfo.line attrInfo.character attrName.length,
             message := cs "Invalid value \"" ++ attrInfo.value ++ cs "\" for attribute \"" ++
               attrName ++ cs "\". Allowed: " ++ joinComma allowedVals,
             source := cs "speedata" }]
        match attrDecl.pattern with
        | some p =>
          if p ≠ [] then
            match compile p with
            | some test =>
              if !test attrInfo.value then
                [{ severity := Severity.warning,
                   range := createRange attrInfo.line attrInfo.character attrName.length,
                   message := cs "Invalid value \"" ++ attrInfo.value ++ cs "\" for attribute \"" ++
                     attrName ++ cs "\"",
                   source := cs "speedata" }]
              else []
            | none => []
          else allowedWarn
        | none => allowedWarn
      else []
    else []

/-- Embedding of the attribute loop of `validateDocument` (part_000
lines 161–205): xmlns declarations skipped, unknown attributes warned,
declared attributes value-checked. -/
def attrChecks (compile : RegexTester) (decl : ElementDeclaration) (tag : TagInfo) :
    List Diagnostic :=
  tag.attributes.flatMap fun p =>
    let attrName := p.1
    let attrInfo := p.2
    if attrName = cs "xmlns" || (cs "xmlns:").isPrefixOf attrName then []
    else
      match decl.attributes.find? (fun a => a.name = attrName) with
      | none =>
        [{ severity := Severity.warning,
           range := createRange attrInfo.line attrInfo.character attrName.length,
           message := cs "Unknown attribute \"" ++ attrName ++ cs "\" for <" ++ tag.name ++ cs ">",
           source := cs "speedata" }]
      | some attrDecl => attrValueCheck compile attrDecl attrName attrInfo

/-- The diagnostic pushed for a missing required attribute (part_000
lines 210–215): severity error, positioned at the opening tag's name
span. -/
def requiredAttrDiag (tag : TagInfo) (attrName : Str) : Diagnostic :=
  { severity := Severity.error,
    range := createRange tag.line tag.character tag.name.length,
    message := cs "Required attribute \"" ++ attrName ++ cs "\" is missing for <" ++
      tag.name ++ cs ">",
    source := cs "speedata" }

/-- Embedding of the required-attribute loop of `validateDocument`
(part_000 lines 207–217). -/
def requiredChecks (decl : ElementDeclaration) (tag : TagInfo) : List Diagnostic :=
  decl.attributes.filterMap fun attrDecl =>
    if attrDecl.required && !mapHas tag.attributes attrDecl.name then
      some (requiredAttrDiag tag attrDecl.name)
    else none

/-- Embedding of `StackEntry` of `validateDocument`. -/
structure StackEntry where
  name : Str
  decl : Option ElementDeclaration
  tag : TagInfo
  hasChildren : Bool
deriving DecidableEq

/-- State threaded through the tag loop of `validateDocument`. -/
structure VState where
  stack : List StackEntry
  preserveDepth : Nat
  diagnostics : List Diagnostic
deriving DecidableEq

/-- Embedding of `stack[stack.length - 1].hasChildren = true` (no-op on
an empty stack, guarded by `stack.length > 0` in the source). -/
def markLastHasChildren : List StackEntry → List StackEntry
  | [] => []
  | [e] => [{ e with hasChildren := true }]
  | e :: rest => e :: markLastHasChildren rest

/-- Conversion of a `CustomDiagnostic` to an LSP diagnostic at the
element's opening-tag range, as done at both custom-rule call sites. -/
def customToDiag (entryName : Str) (tag : TagInfo) (cd : CustomDiagnostic) : Diagnostic :=
  { severity := if cd.severity = cs "error" then Severity.error else Severity.warning,
    range := createRange tag.line tag.character entryName.length,
    message := cd.message,
    source := cs "speedata" }

/-- One-to-one embedding of the body of the tag loop of
`validateDocument` (part_000 lines 82–241). -/
def valStep (model : ContentModel) (compile : RegexTester) (st : VState) (tag : TagInfo) :
    VState :=
  if (cs "/").isPrefixOf tag.name then
    -- Closing tag
    let closeName := tag.name.drop 1
    if st.preserveDepth > 0 then
      let pd := if valPRESERVED_ELEMENTS.contains closeName then st.preserveDepth - 1
                else st.preserveDepth
      if pd > 0 then { st with preserveDepth := pd }
      else
        -- preserveDepth just hit 0 — pop the Value entry from the stack
        { st with preserveDepth := pd,
                  stack := if (match st.stack.getLast? with
                               | some e => decide (e.name = closeName)
                               | none => false) then st.stack.dropLast else st.stack }
    else
      match st.stack.getLast? with
      | some entry =>
        if entry.name = closeName then
          let attrMap := entry.tag.attributes.map (fun p => (p.1, p.2.value))
          let customDiags := validateCustomConstraints entry.name attrMap entry.hasChildren
          { st with stack := st.stack.dropLast,
                    diagnostics := st.diagnostics ++ customDiags.map (customToDiag entry.name entry.tag) }
        else st
      | none => st
  else if st.preserveDepth > 0 then
    -- Skip validation inside preserved elements
    if !tag.selfClosing && valPRESERVED_ELEMENTS.contains tag.name then
      { st with preserveDepth := st.preserveDepth + 1 }
    else st
  else
    let decl := mapGet model.elements tag.name
    let stack1 := markLastHasChildren st.stack
    let unknownD :=
      if decl.isNone then
        [{ severity := Severity.warning,
           range := createRange tag.line tag.character tag.name.length,
           message := cs "Unknown element: <" ++ tag.name ++ cs ">",
           source := cs "speedata" }]
      else []
    let childD :=
      match stack1.getLast? with
      | some parent =>
        match parent.decl, decl with
        | some pdecl, some _ =>
          if !pdecl.allowedChildren.contains tag.name then
            [{ severity := Severity.warning,
               range := createRange tag.line tag.character tag.name.length,
               message := cs "<" ++ tag.name ++ cs "> is not an allowed child element of <" ++
                 parent.name ++ cs ">",
               source := cs "speedata" }]
          else []
        | _, _ => []
      | none => []
    let attrD := match decl with
      | some d => attrChecks compile d tag
      | none => []
    let reqD := match decl with
      | some d => requiredChecks d tag
      | none => []
    if tag.selfClosing then
      let attrMap := tag.attributes.map (fun p => (p.1, p.2.value))
      let customDiags := validateCustomConstraints tag.name attrMap false
      { stack := stack1,
        preserveDepth := st.preserveDepth,
        diagnostics := st.diagnostics ++ unknownD ++ childD ++ attrD ++ reqD ++
          customDiags.map (customToDiag tag.name tag) }
    else
      { stack := stack1 ++ [{ name := tag.name, decl := decl, tag := tag, hasChildren := false }],
        preserveDepth := if valPRESERVED_ELEMENTS.contains tag.name then 1 else st.preserveDepth,
        diagnostics := st.diagnostics ++ unknownD ++ childD ++ attrD ++ reqD }

/-- Deterministic embedding of one attempt of the attribute regex
`(\w[\w:.-]*)\s*=\s*["']([^"']*)["']` at position `p` of `s`: returns
(name, value, match end).  The quantifiers involved never backtrack
productively: the name run cannot cross the `=`, the whitespace runs end
exactly where the next mandatory character can start, and the value
class excludes both quote characters. -/
def matchAttrAt (s : Str) (p : Nat) : Option (Str × Str × Nat) :=
  if isWordChar (chAt s p) then
    let nameRest := (s.drop (p + 1)).takeWhile isNameChar
    let attrName := chAt s p :: nameRest
    let q := p + attrName.length
    let q1 := q + ((s.drop q).takeWhile isWhitespace).length
    if chAt s q1 = '=' then
      let q2 := q1 + 1 + ((s.drop (q1 + 1)).takeWhile isWhitespace).length
      if (chAt s q2 = quoteD || chAt s q2 = quoteS) && q2 < s.length then
        let value := (s.drop (q2 + 1)).takeWhile (fun c => c ≠ quoteD && c ≠ quoteS)
        let q3 := q2 + 1 + value.length
        if q3 < s.length then some (attrName, value, q3 + 1) else none
      else none
    else none
  else none

/-- Embedding of the global scan of the attribute regex over the
attribute substring of a tag: each match records its index (used for
the attribute's document position); scanning resumes after each match. -/
def scanAttrs (s : Str) : Nat → Nat → List (Str × Str × Nat)
  | 0, _ => []
  | fuel + 1, p =>
    if p < s.length then
      match matchAttrAt s p with
      | some (n, v, e) => (n, v, p) :: scanAttrs s fuel e
      | none => scanAttrs s fuel (p + 1)
    else []

/-- Scan of the quote-aware middle group
`(?:[^>"']|"[^"]*"|'[^']*')*` of the tag regex, up to the first
acceptable `>`. -/
def matchTagMiddle (t : Str) : Nat → Nat → Option Nat
  | 0, _ => none
  | fuel + 1, k =>
    if k < t.length then
      let c := chAt t k
      if c = '>' then some k
      else if c = quoteD then
        match indexOfFrom t [quoteD] (k + 1) with
        | some e => matchTagMiddle t fuel (e + 1)
        | none => none
      else if c = quoteS then
        match indexOfFrom t [quoteS] (k + 1) with
        | some e => matchTagMiddle t fuel (e + 1)
        | none => none
      else matchTagMiddle t fuel (k + 1)
    else none

/-- Deterministic embedding of one attempt of the tag regex
`<(\/?[a-zA-Z_][\w:.-]*)((?:[^>"']|"[^"]*"|'[^']*')*)>` at position `i`:
returns (captured name with its optional leading `/`, attribute
substring, index of the closing `>`). -/
def matchTagAt (t : Str) (i : Nat) : Option (Str × Str × Nat) :=
  if chAt t i = '<' then
    let hasSlash := chAt t (i + 1) = '/'
    let nameStart := if hasSlash then i + 2 else i + 1
    if (('a' ≤ chAt t nameStart && chAt t nameStart ≤ 'z') ||
        ('A' ≤ chAt t nameStart && chAt t nameStart ≤ 'Z') ||
        chAt t nameStart = '_') && nameStart < t.length then
      let nameRest := (t.drop (nameStart + 1)).takeWhile isNameChar
      let tagName := (if hasSlash then [('/' : Char)] else []) ++ chAt t nameStart :: nameRest
      let middleStart := nameStart + 1 + nameRest.length
      (matchTagMiddle t (t.length + 1) middleStart).map fun gt =>
        (tagName, substr t middleStart gt, gt)
    else none
  else none

/-- Embedding of the `parseTags` scan loop (part_000 lines 362–405):
global tag-regex matching with document positions; the
processing-instruction/comment skip of the source is vacuous because the
regex itself requires a name character after the optional slash. -/
def parseTagsAux (text : Str) : Nat → Nat → List TagInfo
  | 0, _ => []
  | fuel + 1, i =>
    if i < text.length then
      match matchTagAt text i with
      | some (tagName, attrsStr, gt) =>
        if chAt text (i + 1) = '?' || chAt text (i + 1) = '!' then
          parseTagsAux text fuel (gt + 1)
        else
          let selfClosing := chAt text (gt - 1) = '/'
          let pos := positionAt text (i + 1)
          let attributes :=
            if (cs "/").isPrefixOf tagName then []
            else
              (scanAttrs attrsStr (attrsStr.length + 1) 0).foldl
                (fun m a =>
                  let attrPos := positionAt text (i + 1 + tagName.length + a.2.2)
                  mapSet m a.1 { value := a.2.1, line := attrPos.line, character := attrPos.character })
                []
          { name := tagName, line := pos.line, character := pos.character,
            attributes := attributes, selfClosing := selfClosing } ::
            parseTagsAux text fuel (gt + 1)
      | none => parseTagsAux text fuel (i + 1)
    else []

/-- Embedding of `parseTags(text, doc)`. -/
def parseTags (text : Str) : List TagInfo :=
  parseTagsAux text (text.length + 1) 0

/-- Valid entity-reference test of `checkWellFormedness`: the source
tests `^&#x[0-9a-fA-F]+;`, `^&#[0-9]+;` and `^&[a-zA-Z_][\w.-]*;` on the
rest of the text. -/
def validEntityAt (text : Str) (i : Nat) : Bool :=
  let rest := text.drop i
  (match rest with
   | '&' :: '#' :: 'x' :: more =>
     let hex := more.takeWhile (fun c => ('0' ≤ c && c ≤ '9') || ('a' ≤ c && c ≤ 'f') ||
       ('A' ≤ c && c ≤ 'F'))
     hex ≠ [] && (more.drop hex.length).headD (Char.ofNat 0) = ';'
   | _ => false) ||
  (match rest with
   | '&' :: '#' :: more =>
     let digits := more.takeWhile (fun c => '0' ≤ c && c ≤ '9')
     digits ≠ [] && (more.drop digits.length).headD (Char.ofNat 0) = ';'
   | _ => false) ||
  (match rest with
   | '&' :: c :: more =>
     if ('a' ≤ c && c ≤ 'z') || ('A' ≤ c && c ≤ 'Z') || c = '_' then
       let body := more.takeWhile (fun d => isWordChar d || d = '.' || d = '-')
       (more.drop body.length).headD (Char.ofNat 0) = ';'
     else false
   | _ => false)

/-- Scanner mode of `checkWellFormedness`. -/
structure WfState where
  inTag : Bool
  inComment : Bool
  inPI : Bool
  inCDATA : Bool
  inQuote : Option Char
deriving DecidableEq

/-- One-to-one embedding of the `checkWellFormedness` scan loop
(part_000 lines 259–360), accumulating the bare `<` / bare `&`
diagnostics in document order. -/
def wfLoop (text : Str) : Nat → Nat → WfState → List Diagnostic
  | 0, _, _ => []
  | fuel + 1, i, st =>
    if i < text.length then
      if st.inComment then
        if startsWithAt text (cs "-->") i then
          wfLoop text fuel (i + 3) { st with inComment := false }
        else wfLoop text fuel (i + 1) st
      else if st.inPI then
        if startsWithAt text (cs "?>") i then
          wfLoop text fuel (i + 2) { st with inPI := false }
        else wfLoop text fuel (i + 1) st
      else if st.inCDATA then
        if startsWithAt text (cs "]]>") i then
          wfLoop text fuel (i + 3) { st with inCDATA := false }
        else wfLoop text fuel (i + 1) st
      else if st.inTag then
        match st.inQuote with
        | some q =>
          wfLoop text fuel (i + 1) (if chAt text i = q then { st with inQuote := none } else st)
        | none =>
          if chAt text i = quoteD || chAt text i = quoteS then
            wfLoop text fuel (i + 1) { st with inQuote := some (chAt text i) }
          else if chAt text i = '>' then
            wfLoop text fuel (i + 1) { st with inTag := false }
          else wfLoop text fuel (i + 1) st
      else if startsWithAt text (cs "<!--") i then
        wfLoop text fuel (i + 4) { st with inComment := true }
      else if startsWithAt text (cs "<?") i then
        wfLoop text fuel (i + 2) { st with inPI := true }
      else if startsWithAt text (cs "<![CDATA[") i then
        wfLoop text fuel (i + 9) { st with inCDATA := true }
      else if chAt text i = '<' then
        if i + 1 < text.length &&
            (chAt text (i + 1) = '/' ||
             ('a' ≤ chAt text (i + 1) && chAt text (i + 1) ≤ 'z') ||
             ('A' ≤ chAt text (i + 1) && chAt text (i + 1) ≤ 'Z') ||
             chAt text (i + 1) = '_') then
          wfLoop text fuel (i + 1) { st with inTag := true }
        else
          let pos := positionAt text i
          { severity := Severity.error,
            range := createRange pos.line pos.character 1,
            message := cs "Invalid '<' in text content (use &lt; instead)",
            source := cs "speedata" } :: wfLoop text fuel (i + 1) st
      else if chAt text i = '&' then
        if validEntityAt text i then wfLoop text fuel (i + 1) st
        else
          let pos := positionAt text i
          { severity := Severity.error,
            range := createRange pos.line pos.character 1,
            message := cs "Invalid '&' in text content (use &amp; instead)",
            source := cs "speedata" } :: wfLoop text fuel (i + 1) st
      else wfLoop text fuel (i + 1) st
    else []

/-- Embedding of `checkWellFormedness(text, doc, diagnostics)`. -/
def checkWellFormedness (text : Str) : List Diagnostic :=
  wfLoop text (text.length + 1) 0
    { inTag := false, inComment := false, inPI := false, inCDATA := false, inQuote := none }

/-- Embedding of `validateDocument(doc, model)` (part_000 lines 64–257),
parameterized by the host regex facility. -/
def validateDocument (compile : RegexTester) (text : Str) (model : ContentModel) :
    List Diagnostic :=
  let tags := parseTags text
  let final := tags.foldl (valStep model compile) { stack := [], preserveDepth := 0, diagnostics := [] }
  final.diagnostics ++
    (final.stack.map fun entry =>
      { severity := Severity.error,
        range := createRange entry.tag.line entry.tag.character entry.name.length,
        message := cs "Unclosed element: <" ++ entry.name ++ cs ">",
        source := cs "speedata" }) ++
    checkWellFormedness text

/- ========== xmlDocumentAnalyzer.ts / client extension.ts ========== -/

/-- The regex class `[a-zA-Z_]` of the tag-name regexes. -/
def isRegexNameStart (c : Char) : Bool :=
  ('a' ≤ c && c ≤ 'z') || ('A' ≤ c && c ≤ 'Z') || c = '_'

/-- A token of the non-quote-aware tag regex
`<\/?([a-zA-Z_][\w:.-]*)[^>]*?\/?>` shared (up to an unreachable
processing-instruction skip) by `buildElementStack`
(xmlDocumentAnalyzer.ts) and `buildElementTree` (extension.ts):
`index`/`endIdx` are the match's start and one-past-end offsets, `name`
is the captured name without the slash, `isClose` records a leading
`/`, `isSelfClose` records a `/` before the closing `>`. -/
structure TagTok where
  index : Nat
  endIdx : Nat
  name : Str
  isClose : Bool
  isSelfClose : Bool
deriving DecidableEq

/-- One attempt of the simple tag regex at position `i`: the lazy
`[^>]*?` middle makes the token end at the first `>` after the name. -/
def matchSimpleTagAt (t : Str) (i : Nat) : Option TagTok :=
  if chAt t i = '<' then
    let isClose := chAt t (i + 1) = '/'
    let nameStart := if isClose then i + 2 else i + 1
    if isRegexNameStart (chAt t nameStart) && nameStart < t.length then
      let nameRest := (t.drop (nameStart + 1)).takeWhile isNameChar
      let tagName := chAt t nameStart :: nameRest
      match indexOfFrom t (cs ">") (nameStart + 1 + nameRest.length) with
      | some gt =>
        some { index := i, endIdx := gt + 1, name := tagName, isClose := isClose,
               isSelfClose := chAt t (gt - 1) = '/' }
      | none => none
    else none
  else none

/-- Global scan of the simple tag regex (scanning resumes after each
match, exactly as `exec` with a `g` flag does). -/
def tokenizeSimpleAux (t : Str) : Nat → Nat → List TagTok
  | 0, _ => []
  | fuel + 1, i =>
    if i < t.length then
      match matchSimpleTagAt t i with
      | some tok => tok :: tokenizeSimpleAux t fuel tok.endIdx
      | none => tokenizeSimpleAux t fuel (i + 1)
    else []

/-- All simple tag tokens of a document in order. -/
def tokenizeSimple (t : Str) : List TagTok :=
  tokenizeSimpleAux t (t.length + 1) 0

/-- Embedding of `Array.prototype.lastIndexOf` on a list of names. -/
def lastIdxOf : List Str → Str → Option Nat
  | [], _ => none
  | x :: xs, n =>
    match lastIdxOf xs n with
    | some i => some (i + 1)
    | none => if x = n then some 0 else none

/-- One iteration of the `buildElementStack` loop
(xmlDocumentAnalyzer.ts lines 175–194): a closing tag removes the
frame at `lastIndexOf` and everything above it (`splice(idx)`), a
self-closing tag is ignored, an opening tag is pushed. -/
def buildStackStep (stack : List Str) (tok : TagTok) : List Str :=
  if tok.isClose then
    match lastIdxOf stack tok.name with
    | some idx => stack.take idx
    | none => stack
  else if tok.isSelfClose then stack
  else stack ++ [tok.name]

/-- Embedding of `buildElementStack(text, offset)`: fold the stack step
over all tags whose match index is before the offset. -/
def buildElementStack (text : Str) (offset : Nat) : List Str :=
  ((tokenizeSimple text).takeWhile (fun tok => tok.index < offset)).foldl buildStackStep []

/-- Embedding of `ElementNode` (extension.ts): the mutable
`children`/`parent` references become indices into an arena;
`closeEnd = -1` is the unresolved marker of the source. -/
structure ElementNode where
  name : Str
  start : Nat
  openEnd : Nat
  closeEnd : Int
  children : List Nat
  parent : Option Nat
deriving DecidableEq

/-- Placeholder for out-of-range arena reads (never reached on indices
produced by the builder). -/
def dummyNode : ElementNode :=
  { name := [], start := 0, openEnd := 0, closeEnd := -1, children := [], parent := none }

/-- The JS heap of `buildElementTree`: arena of nodes, root indices and
the open-element stack (bottom first, as the JS array). -/
structure TreeState where
  nodes : List ElementNode
  roots : List Nat
  stack : List Nat
deriving DecidableEq

/-- In-place update of one arena slot (no-op when out of range). -/
def modifyAt {α : Type} : List α → Nat → (α → α) → List α
  | [], _, _ => []
  | x :: xs, 0, f => f x :: xs
  | x :: xs, n + 1, f => x :: modifyAt xs n f

/-- Name of the node an arena index refers to. -/
def nodeNameAt (nodes : List ElementNode) (i : Nat) : Str :=
  (nodes.getD i dummyNode).name

/-- The names of the still-open frames of a tree-builder state. -/
def openFrameNames (st : TreeState) : List Str :=
  st.stack.map (nodeNameAt st.nodes)

/-- One iteration of the `buildElementTree` loop (extension.ts lines
215–256): self-closing tags become attached leaves, opening tags are
attached to the stack top (or the roots) and pushed, and a closing tag
searches the stack from the top downward for the nearest frame with the
same name, sets its `closeEnd` and removes only that frame
(`splice(i, 1)`). -/
def treeBuildStep (st : TreeState) (tok : TagTok) : TreeState :=
  if tok.isSelfClose then
    let idx := st.nodes.length
    let node : ElementNode :=
      { name := tok.name, start := tok.index, openEnd := tok.endIdx,
        closeEnd := (tok.endIdx : Int), children := [], parent := st.stack.getLast? }
    match st.stack.getLast? with
    | some p =>
      { nodes := modifyAt (st.nodes ++ [node]) p (fun n => { n with children := n.children ++ [idx] }),
        roots := st.roots, stack := st.stack }
    | none =>
      { nodes := st.nodes ++ [node], roots := st.roots ++ [idx], stack := st.stack }
  else if !tok.isClose then
    let idx := st.nodes.length
    let node : ElementNode :=
      { name := tok.name, start := tok.index, openEnd := tok.endIdx,
        closeEnd := -1, children := [], parent := st.stack.getLast? }
    match st.stack.getLast? with
    | some p =>
      { nodes := modifyAt (st.nodes ++ [node]) p (fun n => { n with children := n.children ++ [idx] }),
        roots := st.roots, stack := st.stack ++ [idx] }
    | none =>
      { nodes := st.nodes ++ [node], roots := st.roots ++ [idx], stack := st.stack ++ [idx] }
  else
    match lastIdxOf (openFrameNames st) tok.name with
    | some j =>
      { nodes := modifyAt st.nodes (st.stack.getD j 0) (fun n => { n with closeEnd := (tok.endIdx : Int) }),
        roots := st.roots,
        stack := st.stack.eraseIdx j }
    | none => st

/-- The empty tree-builder state. -/
def emptyTree : TreeState := { nodes := [], roots := [], stack := [] }

/-- Embedding of `buildElementTree(text)` restricted to the tags before
an offset (the still-open frames the tree builder has at that point of
its scan). -/
def treeStateAt (text : Str) (offset : Nat) : TreeState :=
  ((tokenizeSimple text).takeWhile (fun tok => tok.index < offset)).foldl treeBuildStep emptyTree

/-- A run of tags is `goodRun`-clean when every closing tag either
matches the current top of the streaming stack or has no match on it at
all (and no token is simultaneously closing and self-closing, a shape
the two builders classify differently). -/
def goodRun (s : List Str) : List TagTok → Bool
  | [] => true
  | tok :: rest =>
    (if tok.isClose then
       !tok.isSelfClose &&
         (decide (s.getLast? = some tok.name) || decide (tok.name ∉ s))
     else true) &&
    goodRun (buildStackStep s tok) rest

/-- Embedding of `CursorContextType` (xmlDocumentAnalyzer.ts). -/
inductive CursorContextType where
  | elementOpen
  | attributeName
  | attributeValue
  | content
  | elementHover
  | attributeHover
  | unknown
deriving DecidableEq

/-- Embedding of `CursorContext`; the optional `elementPrefix` /
`attributePrefix` fields of the source are named `elementPfx` /
`attributePfx` here. -/
structure CursorContext where
  type : CursorContextType
  elementStack : List Str
  currentElement : Str
  attributeName : Option Str
  attributePfx : Option Str
  elementPfx : Option Str
  existingAttributes : Option (List (Str × Str))
deriving DecidableEq

/-- Embedding of the backward scan of `determineCursorContext` (lines
50–60): walk from `offset - 1` toward the start; a `>` means the caret
is outside any tag, a `<` is the enclosing tag's opening bracket. -/
def findLastOpenBracket (text : Str) : Nat → Option Nat
  | 0 => none
  | i + 1 =>
    if chAt text i = '>' then none
    else if chAt text i = '<' then some i
    else findLastOpenBracket text i

/-- Embedding of `extractAttributes(tagContent)`: the attribute regex
scanned globally into a name → value map. -/
def extractAttributes (tagContent : Str) : List (Str × Str) :=
  (scanAttrs tagContent (tagContent.length + 1) 0).foldl
    (fun m a => mapSet m a.1 a.2.1) []

/-- Deterministic embedding of
`textBeforeCursor.match(/(\w[\w:.-]*)=["']([^"']*)$/)`: the value group
is the maximal quote-free suffix, preceded by a quote, an `=`, and a
name whose leftmost match starts at the first word character of the
name-character run before the `=`. -/
def attrValueEndMatch (t : Str) : Option (Str × Str) :=
  let v := (t.reverse.takeWhile (fun c => c ≠ quoteD && c ≠ quoteS)).reverse
  if t.length > v.length then
    let q := chAt t (t.length - v.length - 1)
    if (q = quoteD || q = quoteS) && t.length ≥ v.length + 2 &&
        chAt t (t.length - v.length - 2) = '=' then
      let beforeEq := t.take (t.length - v.length - 2)
      let run := (beforeEq.reverse.takeWhile isNameChar).reverse
      let nm := run.dropWhile (fun c => !isWordChar c)
      if nm ≠ [] then some (nm, v) else none
    else none
  else none

/-- Deterministic embedding of
`textBeforeCursor.match(/\s(\w[\w:.-]*)$/)`: a non-empty
name-character suffix whose first character is a word character,
preceded by a whitespace character. -/
def attrTailMatch (t : Str) : Option Str :=
  let run := (t.reverse.takeWhile isNameChar).reverse
  if run ≠ [] && isWordChar (run.headD (Char.ofNat 0)) && t.length > run.length &&
      isWhitespace (chAt t (t.length - run.length - 1)) then
    some run
  else none

/-- Embedding of the `/^\s*=/` test on the text after the attribute. -/
def eqAfterWs (t : Str) : Bool :=
  (t.dropWhile isWhitespace).headD (Char.ofNat 0) = '='

/-- One-to-one embedding of `determineCursorContext` (xmlDocumentAnalyzer.ts
lines 45–166); the ancestor stack comes from `buildElementStack` as in
`analyzeDocument`. -/
def determineCursorContext (text : Str) (offset : Nat) : CursorContext :=
  let elementStack := buildElementStack text offset
  let currentElement := (elementStack.getLast?).getD []
  match findLastOpenBracket text offset with
  | none =>
    { type := CursorContextType.content, elementStack := elementStack,
      currentElement := currentElement, attributeName := none, attributePfx := none,
      elementPfx := none, existingAttributes := none }
  | some lastOpenBracket =>
    let tagEnd := match indexOfFrom text (cs ">") lastOpenBracket with
                  | some e => e
                  | none => text.length
    let fullTagContent := substr text lastOpenBracket (tagEnd + 1)
    let tagContentToCursor := substr text lastOpenBracket offset
    if (cs "</").isPrefixOf fullTagContent || (cs "<?").isPrefixOf fullTagContent then
      { type := CursorContextType.unknown, elementStack := elementStack,
        currentElement := currentElement, attributeName := none, attributePfx := none,
        elementPfx := none, existingAttributes := none }
    else
      let afterBracket := fullTagContent.drop 1
      if !isRegexNameStart (afterBracket.headD (Char.ofNat 0)) then
        { type := CursorContextType.elementOpen, elementStack := elementStack,
          currentElement := currentElement, attributeName := none, attributePfx := none,
          elementPfx := some (trimStr (tagContentToCursor.drop 1)),
          existingAttributes := none }
      else
        let tagElementName := afterBracket.headD (Char.ofNat 0) ::
          (afterBracket.drop 1).takeWhile isNameChar
        if offset ≤ lastOpenBracket + 1 + tagElementName.length then
          { type := CursorContextType.elementHover, elementStack := elementStack,
            currentElement := tagElementName, attributeName := none, attributePfx := none,
            elementPfx := some (tagElementName.take (offset - lastOpenBracket - 1)),
            existingAttributes := none }
        else
          let afterName := afterBracket.drop tagElementName.length
          let existingAttrs := extractAttributes afterName
          let posInAfterName := offset - (lastOpenBracket + 1 + tagElementName.length)
          let textBeforeCursor := afterName.take posInAfterName
          match attrValueEndMatch textBeforeCursor with
          | some (aname, _) =>
            { type := CursorContextType.attributeValue,
              elementStack := elementStack.dropLast ++ [tagElementName],
              currentElement := tagElementName, attributeName := some aname,
              attributePfx := none, elementPfx := none,
              existingAttributes := some existingAttrs }
          | none =>
            let attrContinues := (text.drop offset).takeWhile isNameChar
            let hover := match attrTailMatch textBeforeCursor with
              | some hname =>
                if eqAfterWs (text.drop (offset + attrContinues.length)) then
                  some (hname ++ attrContinues)
                else none
              | none => none
            match hover with
            | some fullAttrName =>
              { type := CursorContextType.attributeHover,
                elementStack := elementStack.dropLast ++ [tagElementName],
                currentElement := tagElementName, attributeName := some fullAttrName,
                attributePfx := none, elementPfx := none,
                existingAttributes := some existingAttrs }
            | none =>
              { type := CursorContextType.attributeName,
                elementStack := elementStack.dropLast ++ [tagElementName],
                currentElement := tagElementName, attributeName := none,
                attributePfx := some (match attrTailMatch textBeforeCursor with
                                      | some n => n
                                      | none => []),
                elementPfx := none,
                existingAttributes := some existingAttrs }

/-- Embedding of `isInsideCommentOrCDATA(text, offset)`. -/
def insideCommentOrCDATAAux (text : Str) (offset : Nat) : Nat → Nat → Bool
  | 0, _ => false
  | fuel + 1, i =>
    if i < offset then
      if startsWithAt text (cs "<!--") i then
        match indexOfFrom text (cs "-->") (i + 4) with
        | none => true
        | some e => if e + 3 > offset then true else insideCommentOrCDATAAux text offset fuel (e + 3)
      else if startsWithAt text (cs "<![CDATA[") i then
        match indexOfFrom text (cs "]]>") (i + 9) with
        | none => true
        | some e => if e + 3 > offset then true else insideCommentOrCDATAAux text offset fuel (e + 3)
      else insideCommentOrCDATAAux text offset fuel (i + 1)
    else false

/-- Embedding of `isInsideCommentOrCDATA`. -/
def isInsideCommentOrCDATA (text : Str) (offset : Nat) : Bool :=
  insideCommentOrCDATAAux text offset (offset + 1) 0

/-- Embedding of `analyzeDocument(doc, position)` (xmlDocumentAnalyzer.ts
lines 23–44). -/
def analyzeDocument (text : Str) (offset : Nat) : CursorContext :=
  if isInsideCommentOrCDATA text offset then
    { type := CursorContextType.unknown, elementStack := [], currentElement := [],
      attributeName := none, attributePfx := none, elementPfx := none,
      existingAttributes := none }
  else determineCursorContext text offset

/- ============ formattingProvider.ts part 2: parseRng ============ -/

/-- Embedding of `localName(name)`: strip everything through the first
colon. -/
def localName (name : Str) : Str :=
  match indexOfFrom name (cs ":") 0 with
  | some idx => name.drop (idx + 1)
  | none => name

/-- Embedding of `attrs['name'] || ''` (an absent attribute and an empty
one both yield the empty string). -/
def attrsGet (attrs : List (Str × Str)) (k : Str) : Str :=
  (mapGet attrs k).getD []

/-- Embedding of `DefineBlock`. -/
structure RngDefineBlock where
  name : Str
  elementName : Str
  documentation : Str
  attributes : List AttributeDeclaration
  childRefs : List Str
  allowsText : Bool
deriving DecidableEq

/-- Embedding of `StackFrame` of the schema parser. -/
structure RngFrame where
  tag : Str
  attrs : List (Str × Str)
deriving DecidableEq

/-- Embedding of `ParseState` of `parseRng`; `optionalDepth` is a JS
number, embedded as an integer. -/
structure RngState where
  defines : List (Str × RngDefineBlock)
  startRef : Str
  ns : Str
  stack : List RngFrame
  currentDefine : Option RngDefineBlock
  currentAttribute : Option AttributeDeclaration
  currentValues : List ValueEntry
  optionalDepth : Int
  textBuffer : Str
  capturingText : Option Str
deriving DecidableEq

/-- The initial `ParseState` of `parseRng`. -/
def initialRngState : RngState :=
  { defines := [], startRef := [], ns := [], stack := [], currentDefine := none,
    currentAttribute := none, currentValues := [], optionalDepth := 0,
    textBuffer := [], capturingText := none }

/-- Update the last element of a list (no-op on an empty list). -/
def updateLast {α : Type} (f : α → α) : List α → List α
  | [] => []
  | [x] => [f x]
  | x :: rest => x :: updateLast f rest

/-- The `ref` case of the open-tag switch of `parseRng` (lines
463–473): record the reference as a child candidate, and inside
`<start>` (with no open define) as the schema's root reference. -/
def rngRefOpen (st : RngState) (attrs : List (Str × Str)) : RngState :=
  let st1 := match st.currentDefine with
    | some d =>
      { st with currentDefine := some { d with childRefs := d.childRefs ++ [attrsGet attrs (cs "name")] } }
    | none => st
  if st1.stack.any (fun f => f.tag = cs "start") && st1.currentDefine.isNone then
    { st1 with startRef := attrsGet attrs (cs "name") }
  else st1

/-- The switch of the `parser.onopentag` handler of `parseRng`
(formattingProvider.ts part 2, lines 424–506), after the frame push. -/
def rngOpenDispatch (st : RngState) (tag : Str) (attrs : List (Str × Str)) : RngState :=
  if tag = cs "grammar" then
    if attrsGet attrs (cs "ns") ≠ [] then { st with ns := attrsGet attrs (cs "ns") } else st
  else if tag = cs "define" then
    let d : RngDefineBlock :=
      { name := attrsGet attrs (cs "name"), elementName := [], documentation := [],
        attributes := [], childRefs := [], allowsText := false }
    { st with currentDefine := some d }
  else if tag = cs "start" then st
  else if tag = cs "element" then
    match st.currentDefine with
    | some d =>
      if d.elementName = [] then
        { st with currentDefine := some { d with elementName := attrsGet attrs (cs "name") } }
      else st
    | none => st
  else if tag = cs "attribute" then
    let a : AttributeDeclaration :=
      { name := attrsGet attrs (cs "name"), documentation := [],
        required := decide (st.optionalDepth = 0), values := none, pattern := none }
    { st with currentAttribute := some a, currentValues := [] }
  else if tag = cs "ref" then
    rngRefOpen st attrs
  else if tag = cs "optional" ∨ tag = cs "zeroOrMore" then
    { st with optionalDepth := st.optionalDepth + 1 }
  else if tag = cs "oneOrMore" then
    -- children are still required (at least once), don't change optionalDepth
    st
  else if tag = cs "text" then
    match st.currentDefine with
    | some d => { st with currentDefine := some { d with allowsText := true } }
    | none => st
  else if tag = cs "documentation" then
    { st with capturingText := some (cs "documentation"), textBuffer := [] }
  else if tag = cs "value" then
    { st with capturingText := some (cs "value"), textBuffer := [] }
  else if tag = cs "param" then
    if attrsGet attrs (cs "name") = cs "pattern" then
      { st with capturingText := some (cs "pattern"), textBuffer := [] }
    else st
  else st

/-- One-to-one embedding of the `parser.onopentag` handler of `parseRng`
(formattingProvider.ts part 2, lines 416–507): push the frame, then
dispatch on the local tag name. -/
def rngOpen (st0 : RngState) (name : Str) (attrs : List (Str × Str)) : RngState :=
  rngOpenDispatch
    { st0 with stack := st0.stack ++ [{ tag := localName name, attrs := attrs }] }
    (localName name) attrs

/-- Embedding of the `ontext`/`oncdata` handlers of `parseRng`. -/
def rngText (st : RngState) (text : Str) : RngState :=
  if st.capturingText.isSome then { st with textBuffer := st.textBuffer ++ text } else st

/-- The `documentation` case of the close-tag switch of `parseRng`
(lines 549–573): attach the accumulated text to the most specific open
context — the last collected value entry, else the open attribute, else
the open define — only when its documentation is still empty/absent. -/
def rngDocClose (st : RngState) : RngState :=
  let docText := trimStr st.textBuffer
  let st1 := { st with capturingText := none, textBuffer := [] }
  if st1.currentAttribute.isSome && st1.currentValues.length > 0 then
    let setDoc : ValueEntry → ValueEntry := fun lv =>
      match lv.documentation with
      | none => { lv with documentation := some docText }
      | some s => if s = [] then { lv with documentation := some docText } else lv
    { st1 with currentValues := updateLast setDoc st1.currentValues }
  else
    match st1.currentAttribute with
    | some a =>
      if a.documentation = [] then
        { st1 with currentAttribute := some { a with documentation := docText } }
      else st1
    | none =>
      match st1.currentDefine with
      | some d =>
        if d.documentation = [] then
          { st1 with currentDefine := some { d with documentation := docText } }
        else st1
      | none => st1

/-- The switch of the `parser.onclosetag` handler of `parseRng`
(lines 525–593), after the frame pop. -/
def rngCloseDispatch (st : RngState) (tag : Str) : RngState :=
  if tag = cs "define" then
    match st.currentDefine with
    | some d => { st with defines := mapSet st.defines d.name d, currentDefine := none }
    | none => st
  else if tag = cs "attribute" then
    match st.currentAttribute, st.currentDefine with
    | some a, some d =>
      let a1 := if st.currentValues.length > 0 then { a with values := some st.currentValues } else a
      { st with currentDefine := some { d with attributes := d.attributes ++ [a1] },
                currentAttribute := none, currentValues := [] }
    | _, _ => st
  else if tag = cs "optional" ∨ tag = cs "zeroOrMore" then
    { st with optionalDepth := st.optionalDepth - 1 }
  else if tag = cs "documentation" then rngDocClose st
  else if tag = cs "value" then
    { st with capturingText := none, textBuffer := [],
              currentValues := st.currentValues ++ [{ value := trimStr st.textBuffer, documentation := none }] }
  else if tag = cs "param" then
    if st.capturingText = some (cs "pattern") then
      let st1 := match st.currentAttribute with
        | some a => { st with currentAttribute := some { a with pattern := some (trimStr st.textBuffer) } }
        | none => st
      { st1 with capturingText := none, textBuffer := [] }
    else st
  else st

/-- One-to-one embedding of the `parser.onclosetag` handler of
`parseRng` (lines 521–594): pop the frame, then dispatch. -/
def rngClose (st0 : RngState) (name : Str) : RngState :=
  rngCloseDispatch { st0 with stack := st0.stack.dropLast } (localName name)

/-- A schema-parser event of the sax stream. -/
inductive RngEvent where
  | openTag (name : Str) (attrs : List (Str × Str))
  | closeTag (name : Str)
  | textEv (s : Str)
deriving DecidableEq

/-- Event dispatch of `parseRng`. -/
def rngStep (st : RngState) : RngEvent → RngState
  | RngEvent.openTag n a => rngOpen st n a
  | RngEvent.closeTag n => rngClose st n
  | RngEvent.textEv s => rngText st s

/-- First-occurrence deduplication with a seen accumulator. -/
def dedupAux (seen : List Str) : List Str → List Str
  | [] => []
  | x :: xs => if seen.contains x then dedupAux seen xs else x :: dedupAux (seen ++ [x]) xs

/-- First-occurrence deduplication, as `[...new Set(list)]`. -/
def dedupList (l : List Str) : List Str := dedupAux [] l

/-- Embedding of `buildContentModel(state)`: resolve child references to
element names, dropping dangling or element-less defines. -/
def buildContentModel (st : RngState) : ContentModel :=
  { elements := st.defines.foldl
      (fun m p =>
        let define := p.2
        if define.elementName = [] then m
        else
          mapSet m define.elementName
            { name := define.elementName,
              documentation := define.documentation,
              attributes := define.attributes,
              allowedChildren := dedupList (define.childRefs.filterMap fun r =>
                match mapGet st.defines r with
                | some target => if target.elementName ≠ [] then some target.elementName else none
                | none => none),
              allowsText := define.allowsText }) [],
    ns := st.ns }

/-- Embedding of `parseRng(content)` at the event level: fold the sax
handlers over the event stream, then resolve the defines. -/
def parseRngEvents (events : List RngEvent) : ContentModel :=
  buildContentModel (events.foldl rngStep initialRngState)

/-- Schema event stream of a define whose single attribute is wrapped
only in `oneOrMore`. -/
def oneOrMoreExample : List RngEvent :=
  [RngEvent.openTag (cs "grammar") [],
   RngEvent.openTag (cs "define") [(cs "name", cs "d")],
   RngEvent.openTag (cs "element") [(cs "name", cs "Elt")],
   RngEvent.openTag (cs "oneOrMore") [],
   RngEvent.openTag (cs "attribute") [(cs "name", cs "a")],
   RngEvent.closeTag (cs "attribute"),
   RngEvent.closeTag (cs "oneOrMore"),
   RngEvent.closeTag (cs "element"),
   RngEvent.closeTag (cs "define"),
   RngEvent.closeTag (cs "grammar")]

/-- A regex oracle under which every pattern compilation throws. -/
def noRegex : RegexTester := fun _ => none

/-- The claim C1 example model: `Layout` allows child `Section`;
`Section` requires attribute `name`. -/
def exModelC1 : ContentModel :=
  { elements := [
      (cs "Layout",
       { name := cs "Layout", documentation := [], attributes := [],
         allowedChildren := [cs "Section"], allowsText := false }),
      (cs "Section",
       { name := cs "Section", documentation := [],
         attributes := [{ name := cs "name", documentation := [], required := true,
                          values := none, pattern := none }],
         allowedChildren := [], allowsText := false })],
    ns := [] }

/-- A declaration of attribute `a` with allowed values `["x"]` and no
pattern. -/
def attrDeclA : AttributeDeclaration :=
  { name := cs "a", documentation := [], required := false,
    values := some [{ value := cs "x", documentation := none }], pattern := none }

/-- A declaration of attribute `a` with allowed values `["x"]` and a
declared pattern. -/
def attrDeclAP : AttributeDeclaration :=
  { name := cs "a", documentation := [], required := false,
    values := some [{ value := cs "x", documentation := none }], pattern := some (cs "p[") }

/-- Model with a single element `Layout` declaring the valued attribute
`a`. -/
def exModelA : ContentModel :=
  { elements := [
      (cs "Layout",
       { name := cs "Layout", documentation := [], attributes := [attrDeclA],
         allowedChildren := [], allowsText := false })],
    ns := [] }

/-- Two-space indentation options, as produced by default editor settings. -/
def fmtOpts2 : FormattingOptions := { insertSpaces := true, tabSize := 2 }

/-- A document made only of constructs covered by the pretty-printer
(elements, a comment, a processing instruction; no mixed text): a
standalone comment followed by a processing instruction at blank-line
depth. -/
def c2FailingInput : Str := cs "<Root>\n<A/>\n<!--c-->\n\n<?pi?>\n<B/>\n</Root>"

/-- modifyAt preserves length. -/
theorem modifyAt_length {α : Type} (l : List α) (k : Nat) (f : α → α) :
    (modifyAt l k f).length = l.length := by
  induction l generalizing k with
  | nil => rfl
  | cons x xs ih =>
    cases k with
    | zero => rfl
    | succ n => simp [modifyAt, ih]

/-- modifyAt out of range is the identity. -/
theorem modifyAt_oob {α : Type} (l : List α) (k : Nat) (f : α → α) (h : l.length ≤ k) :
    modifyAt l k f = l := by
  induction l generalizing k with
  | nil => rfl
  | cons x xs ih =>
    cases k with
    | zero => simp at h
    | succ n => simp only [modifyAt]; rw [ih n (by simpa using h)]

/-- Reading any slot other than the modified one is unchanged. -/
theorem getD_modifyAt_ne {α : Type} (l : List α) (k : Nat) (f : α → α) (i : Nat) (d : α)
    (h : i ≠ k) : (modifyAt l k f).getD i d = l.getD i d := by
  induction l generalizing k i with
  | nil => rfl
  | cons x xs ih =>
    cases k with
    | zero =>
      cases i with
      | zero => exact absurd rfl h
      | succ j => simp [modifyAt]
    | succ n =>
      cases i with
      | zero => simp [modifyAt]
      | succ j => simpa [modifyAt] using ih n j (by omega)

/-- Reading the modified slot applies the update (in range). -/
theorem getD_modifyAt_self {α : Type} (l : List α) (k : Nat) (f : α → α) (d : α)
    (h : k < l.length) : (modifyAt l k f).getD k d = f (l.getD k d) := by
  induction l generalizing k with
  | nil => simp at h
  | cons x xs ih =>
    cases k with
    | zero => simp [modifyAt]
    | succ n => simpa [modifyAt] using ih n (by simpa using h)

/-- Node names are untouched by an update that preserves them. -/
theorem nodeNameAt_modifyAt (nodes : List ElementNode) (k : Nat) (f : ElementNode → ElementNode)
    (hf : ∀ x, (f x).name = x.name) (i : Nat) :
    nodeNameAt (modifyAt nodes k f) i = nodeNameAt nodes i := by
  by_cases hik : i = k
  · subst hik
    by_cases hlen : i < nodes.length
    · unfold nodeNameAt
      rw [getD_modifyAt_self nodes i f dummyNode hlen, hf]
    · rw [modifyAt_oob nodes i f (by omega)]
  · unfold nodeNameAt
    rw [getD_modifyAt_ne nodes k f i dummyNode hik]

/-- Node names below the appended slot are unchanged. -/
theorem nodeNameAt_append_lt (nodes : List ElementNode) (node : ElementNode) (i : Nat)
    (h : i < nodes.length) : nodeNameAt (nodes ++ [node]) i = nodeNameAt nodes i := by
  induction nodes generalizing i with
  | nil => simp at h
  | cons x xs ih =>
    cases i with
    | zero => rfl
    | succ j => exact ih j (by simpa using h)

/-- The appended slot holds the new node. -/
theorem nodeNameAt_append_len (nodes : List ElementNode) (node : ElementNode) :
    nodeNameAt (nodes ++ [node]) nodes.length = node.name := by
  induction nodes with
  | nil => rfl
  | cons x xs ih => exact ih

/-- Attaching a child index to an arena slot changes no node name. -/
theorem nodeNameAt_modify_children (nodes : List ElementNode) (p idx i : Nat) :
    nodeNameAt (modifyAt nodes p (fun n => { n with children := n.children ++ [idx] })) i
      = nodeNameAt nodes i :=
  nodeNameAt_modifyAt nodes p (fun n => { n with children := n.children ++ [idx] })
    (fun _ => rfl) i

/-- Setting a close offset on an arena slot changes no node name. -/
theorem nodeNameAt_modify_closeEnd (nodes : List ElementNode) (p : Nat) (c : Int) (i : Nat) :
    nodeNameAt (modifyAt nodes p (fun n => { n with closeEnd := c })) i
      = nodeNameAt nodes i :=
  nodeNameAt_modifyAt nodes p (fun n => { n with closeEnd := c }) (fun _ => rfl) i

/-- lastIdxOf misses exactly the absent names. -/
theorem lastIdxOf_none_of_not_mem (l : List Str) (n : Str) (h : n ∉ l) :
    lastIdxOf l n = none := by
  induction l with
  | nil => rfl
  | cons x xs ih =>
    simp only [List.mem_cons, not_or] at h
    simp only [lastIdxOf, ih h.2]
    rw [if_neg (fun hxn => h.1 hxn.symm)]

/-- lastIdxOf finds the last occurrence. -/
theorem lastIdxOf_append_not_mem (l1 l2 : List Str) (n : Str) (h : n ∉ l2) :
    lastIdxOf (l1 ++ n :: l2) n = some l1.length := by
  induction l1 with
  | nil =>
    have heq : lastIdxOf ([] ++ n :: l2) n =
        (match lastIdxOf l2 n with
         | some i => some (i + 1)
         | none => if n = n then some 0 else none) := rfl
    rw [heq, lastIdxOf_none_of_not_mem l2 n h]
    simp
  | cons x xs ih =>
    have heq : lastIdxOf ((x :: xs) ++ n :: l2) n =
        (match lastIdxOf (xs ++ n :: l2) n with
         | some i => some (i + 1)
         | none => if x = n then some 0 else none) := rfl
    rw [heq, ih]
    rfl

/-- lastIdxOf of the top-of-stack name is the top index. -/
theorem lastIdxOf_getLast (l : List Str) (n : Str) (h : l.getLast? = some n) :
    lastIdxOf l n = some (l.length - 1) := by
  induction l with
  | nil => simp at h
  | cons x xs ih =>
    cases xs with
    | nil =>
      have hx : x = n := by simpa using h
      simp [lastIdxOf, hx]
    | cons y t =>
      have hlast : (y :: t).getLast? = some n := by
        simpa [List.getLast?_cons_cons] using h
      have hrec := ih hlast
      have heq : lastIdxOf (x :: y :: t) n =
          (match lastIdxOf (y :: t) n with
           | some i => some (i + 1)
           | none => if x = n then some 0 else none) := rfl
      rw [heq, hrec]
      simp

/-- eraseIdx commutes with map. -/
theorem map_eraseIdx_comm {α β : Type} (f : α → β) (l : List α) (i : Nat) :
    (l.eraseIdx i).map f = (l.map f).eraseIdx i := by
  induction l generalizing i with
  | nil => rfl
  | cons x xs ih =>
    cases i with
    | zero => rfl
    | succ n => simp [List.eraseIdx, ih]

/-- Erasing the last index is dropping the last element. -/
theorem eraseIdx_last_eq_take {α : Type} (l : List α) :
    l.eraseIdx (l.length - 1) = l.take (l.length - 1) := by
  induction l with
  | nil => rfl
  | cons x xs ih =>
    cases xs with
    | nil => rfl
    | cons y t =>
      have h1 : (x :: y :: t).length - 1 = (y :: t).length - 1 + 1 := by simp
      rw [h1]
      show x :: (y :: t).eraseIdx ((y :: t).length - 1) = x :: (y :: t).take ((y :: t).length - 1)
      rw [ih]

/-- Erasing at the junction removes exactly the middle element. -/
theorem eraseIdx_append_cons {α : Type} (pre post : List α) (k : α) :
    (pre ++ k :: post).eraseIdx pre.length = pre ++ post := by
  induction pre with
  | nil => rfl
  | cons x xs ih => simp [List.eraseIdx, ih]

/-- Reading at the junction returns the middle element. -/
theorem getD_append_cons {α : Type} (pre post : List α) (k d : α) :
    (pre ++ k :: post).getD pre.length d = k := by
  induction pre with
  | nil => rfl
  | cons x xs ih => simpa using ih

/-- Equation: the tree-builder close step on a matched name. -/
theorem treeBuildStep_close_some (st : TreeState) (tok : TagTok) (j : Nat)
    (hcl : tok.isClose = true) (hsc : tok.isSelfClose = false)
    (hj : lastIdxOf (openFrameNames st) tok.name = some j) :
    treeBuildStep st tok =
      { nodes := modifyAt st.nodes (st.stack.getD j 0)
          (fun n => { n with closeEnd := (tok.endIdx : Int) }),
        roots := st.roots,
        stack := st.stack.eraseIdx j } := by
  unfold treeBuildStep
  rw [hsc, hcl]
  simp only [Bool.false_eq_true, if_false, Bool.not_true, hj]

/-- Equation: the tree-builder close step on an unmatched name. -/
theorem treeBuildStep_close_none (st : TreeState) (tok : TagTok)
    (hcl : tok.isClose = true) (hsc : tok.isSelfClose = false)
    (hj : lastIdxOf (openFrameNames st) tok.name = none) :
    treeBuildStep st tok = st := by
  unfold treeBuildStep
  rw [hsc, hcl]
  simp only [Bool.false_eq_true, if_false, Bool.not_true, hj]

/-- Equation: the streaming close step on a matched name. -/
theorem buildStackStep_close_some (s : List Str) (tok : TagTok) (j : Nat)
    (hcl : tok.isClose = true) (hj : lastIdxOf s tok.name = some j) :
    buildStackStep s tok = s.take j := by
  unfold buildStackStep
  rw [hcl]
  simp only [if_true, hj]

/-- Equation: the streaming close step on an unmatched name. -/
theorem buildStackStep_close_none (s : List Str) (tok : TagTok)
    (hcl : tok.isClose = true) (hj : lastIdxOf s tok.name = none) :
    buildStackStep s tok = s := by
  unfold buildStackStep
  rw [hcl]
  simp only [if_true, hj]

/-- One tag of a clean run moves the tree builder's open-frame names
exactly as the streaming stack step does, and keeps every stack index
inside the arena. -/
theorem stepAgree (st : TreeState) (tok : TagTok)
    (hinv : ∀ i ∈ st.stack, i < st.nodes.length)
    (hgood : tok.isClose = true → tok.isSelfClose = false ∧
      ((openFrameNames st).getLast? = some tok.name ∨ tok.name ∉ openFrameNames st)) :
    openFrameNames (treeBuildStep st tok) = buildStackStep (openFrameNames st) tok
    ∧ ∀ i ∈ (treeBuildStep st tok).stack, i < (treeBuildStep st tok).nodes.length := by
  cases hsc : tok.isSelfClose with
  | true =>
    cases hcl : tok.isClose with
    | true => exact absurd ((hgood hcl).1) (by rw [hsc]; exact Bool.noConfusion)
    | false =>
      unfold treeBuildStep buildStackStep
      rw [hsc, hcl]
      simp only [if_true, Bool.false_eq_true, if_false]
      cases hl : st.stack.getLast? with
      | some p =>
        simp only [hl]
        constructor
        · unfold openFrameNames
          refine List.map_congr_left ?_
          intro i hi
          rw [nodeNameAt_modify_children, nodeNameAt_append_lt _ _ _ (hinv i hi)]
        · intro i hi
          have := hinv i hi
          rw [modifyAt_length, List.length_append, List.length_cons, List.length_nil]
          omega
      | none =>
        simp only [hl]
        constructor
        · unfold openFrameNames
          refine List.map_congr_left ?_
          intro i hi
          rw [nodeNameAt_append_lt _ _ _ (hinv i hi)]
        · intro i hi
          have := hinv i hi
          rw [List.length_append, List.length_cons, List.length_nil]
          omega
  | false =>
    cases hcl : tok.isClose with
    | false =>
      unfold treeBuildStep buildStackStep
      rw [hsc, hcl]
      simp only [Bool.false_eq_true, if_false, Bool.not_false, if_true]
      cases hl : st.stack.getLast? with
      | some p =>
        constructor
        · unfold openFrameNames
          simp only [List.map_append]
          congr 1
          · refine List.map_congr_left ?_
            intro i hi
            rw [nodeNameAt_modify_children, nodeNameAt_append_lt _ _ _ (hinv i hi)]
          · simp only [List.map_cons, List.map_nil]
            rw [nodeNameAt_modify_children, nodeNameAt_append_len]
        · intro i hi
          rw [modifyAt_length, List.length_append, List.length_cons, List.length_nil]
          simp only [List.mem_append, List.mem_singleton] at hi
          rcases hi with hi | hi
          · have := hinv i hi
            omega
          · omega
      | none =>
        constructor
        · unfold openFrameNames
          simp only [List.map_append]
          congr 1
          · refine List.map_congr_left ?_
            intro i hi
            rw [nodeNameAt_append_lt _ _ _ (hinv i hi)]
          · simp only [List.map_cons, List.map_nil]
            rw [nodeNameAt_append_len]
        · intro i hi
          rw [List.length_append, List.length_cons, List.length_nil]
          simp only [List.mem_append, List.mem_singleton] at hi
          rcases hi with hi | hi
          · have := hinv i hi
            omega
          · omega
    | true =>
      rcases (hgood hcl).2 with htop | habs
      · have hj := lastIdxOf_getLast _ _ htop
        have hlen : (openFrameNames st).length = st.stack.length := by
          unfold openFrameNames; rw [List.length_map]
        rw [treeBuildStep_close_some st tok _ hcl hsc hj,
          buildStackStep_close_some _ tok _ hcl hj]
        constructor
        · show (st.stack.eraseIdx ((openFrameNames st).length - 1)).map
              (nodeNameAt (modifyAt st.nodes (st.stack.getD ((openFrameNames st).length - 1) 0)
                (fun n => { n with closeEnd := (tok.endIdx : Int) })))
            = (openFrameNames st).take ((openFrameNames st).length - 1)
          rw [List.map_congr_left
              (fun i _ => nodeNameAt_modify_closeEnd st.nodes
                (st.stack.getD ((openFrameNames st).length - 1) 0) (tok.endIdx : Int) i),
            map_eraseIdx_comm, hlen]
          have : List.map (nodeNameAt st.nodes) st.stack = openFrameNames st := rfl
          rw [this, ← hlen, eraseIdx_last_eq_take]
        · intro i hi
          rw [modifyAt_length]
          exact hinv i (List.mem_of_mem_eraseIdx hi)
      · rw [treeBuildStep_close_none st tok hcl hsc (lastIdxOf_none_of_not_mem _ _ habs),
          buildStackStep_close_none _ tok hcl (lastIdxOf_none_of_not_mem _ _ habs)]
        exact ⟨rfl, hinv⟩

/-- Along a clean run the streaming stack fold and the tree-builder fold
stay in lockstep. -/
theorem goodAgree (toks : List TagTok) :
    ∀ (st : TreeState),
      (∀ i ∈ st.stack, i < st.nodes.length) →
      goodRun (openFrameNames st) toks = true →
      toks.foldl buildStackStep (openFrameNames st) = openFrameNames (toks.foldl treeBuildStep st) := by
  induction toks with
  | nil => intro st _ _; rfl
  | cons tok rest ih =>
    intro st hinv hgood
    simp only [goodRun, Bool.and_eq_true] at hgood
    have hhead := hgood.1
    have htail := hgood.2
    have hg : tok.isClose = true → tok.isSelfClose = false ∧
        ((openFrameNames st).getLast? = some tok.name ∨ tok.name ∉ openFrameNames st) := by
      intro hcl
      rw [hcl] at hhead
      simp only [if_true, Bool.and_eq_true, Bool.not_eq_true', Bool.or_eq_true,
        decide_eq_true_eq] at hhead
      exact ⟨hhead.1, hhead.2⟩
    obtain ⟨hstep, hinv2⟩ := stepAgree st tok hinv hg
    simp only [List.foldl_cons]
    rw [← hstep] at htail ⊢
    exact ih (treeBuildStep st tok) hinv2 htail

/-- C3 counterexample: the claim that the cursor-context resolver's
streaming stack equals the tree builder's open frames "for every input,
including inputs with intermediate unmatched frames below the matched
close" is FALSE: on `<A><B></A>` at the end offset, `buildElementStack`
removes the matched `A` frame and everything above it
(`splice(idx)` with one argument), yielding `[]`, while
`buildElementTree` removes only the matched frame (`splice(i, 1)`),
leaving `B` open. -/
theorem c3_streaming_tree_stacks_disagree :
    buildElementStack (cs "<A><B></A>") 10
      ≠ openFrameNames (treeStateAt (cs "<A><B></A>") 10) := by
  decide

/-- C3 amended: the streaming stack builder and the tree builder's
open-frame stack agree at every offset for inputs whose closing tags
each match the current top of stack or nothing at all (no intermediate
unmatched frames below a matched close, and no token both closing and
self-closing); with intermediate unmatched frames they diverge, as the
counterexample shows. -/
theorem c3_streaming_tree_stacks_agree_on_clean_runs :
    ∀ (text : Str) (offset : Nat),
      goodRun [] ((tokenizeSimple text).takeWhile (fun tok => tok.index < offset)) = true →
      buildElementStack text offset = openFrameNames (treeStateAt text offset) := by
  intro text offset hgood
  unfold buildElementStack treeStateAt
  exact goodAgree ((tokenizeSimple text).takeWhile (fun tok => tok.index < offset)) emptyTree
    (by intro i hi; simp [emptyTree] at hi) hgood

/-- C3 witness: on the clean document `<A><B></B>` at its end offset the
two stacks coincide. -/
theorem c3_streaming_tree_stacks_agree_on_clean_runs_witness :
    goodRun [] ((tokenizeSimple (cs "<A><B></B>")).takeWhile (fun tok => tok.index < 10)) = true
    ∧ buildElementStack (cs "<A><B></B>") 10
        = openFrameNames (treeStateAt (cs "<A><B></B>") 10) :=
  ⟨by decide, c3_streaming_tree_stacks_agree_on_clean_runs (cs "<A><B></B>") 10 (by decide)⟩

/-- C4: in the tree builder, a closing tag with no matching frame on the
open-element stack leaves the whole state unchanged; a closing tag whose
nearest match from the top is frame `k` (no frame above `k` has the
name) removes exactly that frame from the stack — frames above it stay —
leaves the roots untouched, modifies no arena node other than `k`, and
changes node `k` only by setting its closeEnd to the tag's end offset. -/
theorem c4_close_pops_nearest_matching_frame :
    ∀ (st : TreeState) (tok : TagTok),
      tok.isClose = true → tok.isSelfClose = false →
      ((∀ i ∈ st.stack, nodeNameAt st.nodes i ≠ tok.name) → treeBuildStep st tok = st)
      ∧ (∀ (pre post : List Nat) (k : Nat),
          st.stack = pre ++ k :: post →
          nodeNameAt st.nodes k = tok.name →
          (∀ i ∈ post, nodeNameAt st.nodes i ≠ tok.name) →
          (treeBuildStep st tok).stack = pre ++ post
          ∧ (treeBuildStep st tok).roots = st.roots
          ∧ (∀ i, i ≠ k →
              (treeBuildStep st tok).nodes.getD i dummyNode = st.nodes.getD i dummyNode)
          ∧ (k < st.nodes.length →
              (treeBuildStep st tok).nodes.getD k dummyNode
                = { st.nodes.getD k dummyNode with closeEnd := (tok.endIdx : Int) })) := by
  intro st tok hcl hsc
  constructor
  · intro habs
    have hnotmem : tok.name ∉ openFrameNames st := by
      unfold openFrameNames
      intro hmem
      obtain ⟨i, hi, hni⟩ := List.mem_map.mp hmem
      exact habs i hi hni
    exact treeBuildStep_close_none st tok hcl hsc (lastIdxOf_none_of_not_mem _ _ hnotmem)
  · intro pre post k hstack hk hpost
    have hnp : tok.name ∉ post.map (nodeNameAt st.nodes) := by
      intro hmem
      obtain ⟨i, hi, hni⟩ := List.mem_map.mp hmem
      exact hpost i hi hni
    have hof : openFrameNames st
        = pre.map (nodeNameAt st.nodes) ++ tok.name :: post.map (nodeNameAt st.nodes) := by
      unfold openFrameNames
      rw [hstack, List.map_append, List.map_cons, hk]
    have hj : lastIdxOf (openFrameNames st) tok.name = some pre.length := by
      rw [hof, lastIdxOf_append_not_mem _ _ _ hnp, List.length_map]
    have hstep := treeBuildStep_close_some st tok pre.length hcl hsc hj
    have hgd : st.stack.getD pre.length 0 = k := by
      rw [hstack]; exact getD_append_cons pre post k 0
    refine ⟨?_, ?_, ?_, ?_⟩
    · rw [hstep]
      show st.stack.eraseIdx pre.length = pre ++ post
      rw [hstack, eraseIdx_append_cons]
    · rw [hstep]
    · intro i hik
      rw [hstep]
      show (modifyAt st.nodes (st.stack.getD pre.length 0)
        (fun n => { n with closeEnd := (tok.endIdx : Int) })).getD i dummyNode
          = st.nodes.getD i dummyNode
      rw [hgd]
      exact getD_modifyAt_ne st.nodes k _ i dummyNode hik
    · intro hklen
      rw [hstep]
      show (modifyAt st.nodes (st.stack.getD pre.length 0)
        (fun n => { n with closeEnd := (tok.endIdx : Int) })).getD k dummyNode
          = { st.nodes.getD k dummyNode with closeEnd := (tok.endIdx : Int) }
      rw [hgd]
      exact getD_modifyAt_self st.nodes k _ dummyNode hklen

/-- C4 witness: closing `A` over the open frames `A, B, A` of
`<A><B><A>` pops only the topmost `A` (arena index 2), keeping the
unmatched `B` and the outer `A`. -/
theorem c4_close_pops_nearest_matching_frame_witness :
    (treeBuildStep (treeStateAt (cs "<A><B><A>") 9)
        { index := 9, endIdx := 13, name := cs "A", isClose := true,
          isSelfClose := false }).stack = [0, 1] ++ [] :=
  ((c4_close_pops_nearest_matching_frame (treeStateAt (cs "<A><B><A>") 9)
      { index := 9, endIdx := 13, name := cs "A", isClose := true, isSelfClose := false }
      rfl rfl).2 [0, 1] [] 2 (by decide) (by decide) (by decide)).1

/-- C2: the claim "formatting is idempotent (formatXml (formatXml t) =
formatXml t) for every input containing only constructs covered by the
pretty-printer's rules" is FALSE of the code: on `c2FailingInput` the
first pass emits the buffered blank line after the standalone comment
but before the processing instruction (which bypasses the sibling
blank-line bookkeeping), so the second pass sees the comment as
attached, reorders it after the processing instruction and drops the
blank line — the two outputs differ. -/
theorem c2_format_not_idempotent :
    formatXml (formatXml c2FailingInput fmtOpts2) fmtOpts2 ≠ formatXml c2FailingInput fmtOpts2 := by
  decide

/-- C8: no blank line is inserted between two consecutive self-closing
siblings: whenever the previous sibling was self-closing and the current
element is self-closing, `flushBeforeElement` emits exactly the buffered
comments and never a blank line, at any depth and for any stack and
pending state; concretely, `<A><B/><B/></A>` formats with no blank line
between the two `B` siblings both when their parent is the document root
(blank-line depth 1) and when it is nested (non-blank-line depth 2). -/
theorem c8_selfclosing_siblings_no_blank :
    (∀ (depth : Nat) (stack : List Str) (pending : Bool) (buf : List Str),
        flushBeforeElement depth stack pending true buf true = buf)
    ∧ formatXml (cs "<A><B/><B/></A>") fmtOpts2 = cs "<A>\n  <B />\n  <B />\n</A>\n"
    ∧ formatXml (cs "<R><A><B/><B/></A></R>") fmtOpts2
        = cs "<R>\n  <A>\n    <B />\n    <B />\n  </A>\n</R>\n" := by
  refine ⟨fun depth stack pending buf => ?_, by decide, by decide⟩
  simp [flushBeforeElement]

/-- C1: for every opening tag of a declared element outside preserved
regions, each declared required attribute absent from the tag yields an
error diagnostic positioned at the opening tag; and validating
`<Layout><Section></Section></Layout>` against the example model
(Layout allows child Section, Section requires `name`) produces exactly
one diagnostic: the missing required attribute `name` error at
`Section`'s opening-tag position (line 0, characters 9–16). -/
theorem c1_missing_required_attribute_error :
    (∀ (model : ContentModel) (compile : RegexTester) (st : VState) (tag : TagInfo)
        (decl : ElementDeclaration) (attrDecl : AttributeDeclaration),
        st.preserveDepth = 0 →
        (cs "/").isPrefixOf tag.name = false →
        mapGet model.elements tag.name = some decl →
        attrDecl ∈ decl.attributes →
        attrDecl.required = true →
        mapHas tag.attributes attrDecl.name = false →
        requiredAttrDiag tag attrDecl.name ∈ (valStep model compile st tag).diagnostics)
    ∧ validateDocument noRegex (cs "<Layout><Section></Section></Layout>") exModelC1
        = [requiredAttrDiag
             { name := cs "Section", line := 0, character := 9, attributes := [],
               selfClosing := false }
             (cs "name")] := by
  constructor
  · intro model compile st tag decl attrDecl hpd hclose hdecl hmem hreq hhas
    have hdiag : requiredAttrDiag tag attrDecl.name ∈ requiredChecks decl tag := by
      unfold requiredChecks
      rw [List.mem_filterMap]
      exact ⟨attrDecl, hmem, by rw [hreq, hhas]; rfl⟩
    unfold valStep
    rw [hclose, hpd]
    simp only [Bool.false_eq_true, if_false, gt_iff_lt, lt_irrefl, hdecl]
    cases hsc : tag.selfClosing <;>
      simp [List.mem_append, hdiag]
  · decide

/-- C1 witness: the general conjunct applied to the `Section` tag of the
example document. -/
theorem c1_missing_required_attribute_error_witness :
    requiredAttrDiag
        { name := cs "Section", line := 0, character := 9, attributes := [],
          selfClosing := false }
        (cs "name") ∈
      (valStep exModelC1 noRegex
        { stack := [], preserveDepth := 0, diagnostics := [] }
        { name := cs "Section", line := 0, character := 9, attributes := [],
          selfClosing := false }).diagnostics :=
  c1_missing_required_attribute_error.1 exModelC1 noRegex
    { stack := [], preserveDepth := 0, diagnostics := [] }
    { name := cs "Section", line := 0, character := 9, attributes := [], selfClosing := false }
    { name := cs "Section", documentation := [],
      attributes := [{ name := cs "name", documentation := [], required := true,
                       values := none, pattern := none }],
      allowedChildren := [], allowsText := false }
    { name := cs "name", documentation := [], required := true, values := none, pattern := none }
    rfl (by decide) (by decide) (by decide) rfl (by decide)

/-- C6: for a present declared attribute whose declaration lists allowed
values, when the (non-empty) value is not among them and a truthy
(non-empty) pattern is declared, the invalid-value warning is emitted
exactly when the compiled whole-value test fails, and when compiling the
pattern throws (the oracle returns `none`), no diagnostic at all is
emitted for that attribute value; a declared but empty pattern is falsy
for `if (attrDecl.pattern)`, so the regex is never consulted and the
Allowed-values warning is emitted instead. -/
theorem c6_pattern_mismatch_and_malformed_pattern :
    ∀ (compile : RegexTester) (attrDecl : AttributeDeclaration) (attrName : Str)
      (attrInfo : AttrInfo) (vals : List ValueEntry) (p : Str),
      attrDecl.values = some vals →
      vals ≠ [] →
      attrInfo.value ≠ [] →
      (vals.map (·.value)).contains attrInfo.value = false →
      attrDecl.pattern = some p →
      (p ≠ [] →
        (compile p = none → attrValueCheck compile attrDecl attrName attrInfo = []) ∧
        (∀ test, compile p = some test →
          attrValueCheck compile attrDecl attrName attrInfo =
            (if test attrInfo.value then []
             else [{ severity := Severity.warning,
                     range := createRange attrInfo.line attrInfo.character attrName.length,
                     message := cs "Invalid value \"" ++ attrInfo.value ++
                       cs "\" for attribute \"" ++ attrName ++ cs "\"",
                     source := cs "speedata" }])))
      ∧ (p = [] →
          attrValueCheck compile attrDecl attrName attrInfo =
            [{ severity := Severity.warning,
               range := createRange attrInfo.line attrInfo.character attrName.length,
               message := cs "Invalid value \"" ++ attrInfo.value ++
                 cs "\" for attribute \"" ++ attrName ++ cs "\". Allowed: " ++
                 joinComma (vals.map (·.value)),
               source := cs "speedata" }]) := by
  intro compile attrDecl attrName attrInfo vals p hvals hne hnev hnotin hpat
  have hlen : vals.length > 0 := List.length_pos.mpr hne
  have hnotin2 : ∀ x ∈ vals, ¬x.value = attrInfo.value := by
    have hmem : attrInfo.value ∉ vals.map (fun v => v.value) := by
      simpa using hnotin
    intro x hx h
    exact hmem (by rw [← h]; exact List.mem_map_of_mem _ hx)
  obtain ⟨nm, doc, rq, vls, pat⟩ := attrDecl
  simp only at hvals hpat
  subst hvals hpat
  constructor
  · intro hpne
    constructor
    · intro hcomp
      unfold attrValueCheck
      simp [hlen, hnev, hnotin2, hpne, hcomp]
    · intro test hcomp
      unfold attrValueCheck
      simp only [hcomp]
      simp [hlen, hnev, hnotin2, hpne]
      cases h : test attrInfo.value
      · simp [h]
        exact hnotin2
      · simp [h]
  · intro hpe
    subst hpe
    unfold attrValueCheck
    simp [hlen, hnev, hnotin2]
    exact hnotin2

/-- C6 witness: with value `"y"` not among allowed values `["x"]` and a
declared non-empty pattern, a throwing oracle yields no diagnostic and a
succeeding-compile oracle whose test rejects the value yields the
invalid-value warning; with a declared empty pattern the Allowed-values
warning is emitted without consulting the oracle. -/
theorem c6_pattern_mismatch_and_malformed_pattern_witness :
    attrValueCheck noRegex attrDeclAP (cs "a") { value := cs "y", line := 0, character := 8 } = []
    ∧ attrValueCheck (fun _ => some (fun _ => false)) attrDeclAP (cs "a")
        { value := cs "y", line := 0, character := 8 }
      = [{ severity := Severity.warning,
           range := createRange 0 8 1,
           message := cs "Invalid value \"y\" for attribute \"a\"",
           source := cs "speedata" }]
    ∧ attrValueCheck noRegex
        { name := cs "a", documentation := [], required := false,
          values := some [{ value := cs "x", documentation := none }], pattern := some [] }
        (cs "a") { value := cs "y", line := 0, character := 8 }
      = [{ severity := Severity.warning,
           range := createRange 0 8 1,
           message := cs "Invalid value \"y\" for attribute \"a\". Allowed: x",
           source := cs "speedata" }] := by
  refine ⟨?_, ?_, ?_⟩
  · exact ((c6_pattern_mismatch_and_malformed_pattern noRegex attrDeclAP (cs "a")
      { value := cs "y", line := 0, character := 8 }
      [{ value := cs "x", documentation := none }] (cs "p[")
      rfl (by decide) (by decide) (by decide) rfl).1 (by decide)).1 rfl
  · have h := ((c6_pattern_mismatch_and_malformed_pattern (fun _ => some (fun _ => false))
      attrDeclAP (cs "a") { value := cs "y", line := 0, character := 8 }
      [{ value := cs "x", documentation := none }] (cs "p[")
      rfl (by decide) (by decide) (by decide) rfl).1 (by decide)).2 (fun _ => false) rfl
    simpa using h
  · have h := (c6_pattern_mismatch_and_malformed_pattern noRegex
      { name := cs "a", documentation := [], required := false,
        values := some [{ value := cs "x", documentation := none }], pattern := some [] }
      (cs "a") { value := cs "y", line := 0, character := 8 }
      [{ value := cs "x", documentation := none }] []
      rfl (by decide) (by decide) (by decide) rfl).2 rfl
    simpa using h

/-- C7: while the validator's preserve-depth counter is positive, no tag
of any kind adds a diagnostic; a non-self-closing opening tag whose name
is a preserved element name increments the counter; a closing tag whose
name is a preserved element name decrements it. -/
theorem c7_preserved_region_suspends_validation :
    ∀ (model : ContentModel) (compile : RegexTester) (st : VState) (tag : TagInfo),
      0 < st.preserveDepth →
      (valStep model compile st tag).diagnostics = st.diagnostics
      ∧ ((cs "/").isPrefixOf tag.name = false → tag.selfClosing = false →
          valPRESERVED_ELEMENTS.contains tag.name = true →
          (valStep model compile st tag).preserveDepth = st.preserveDepth + 1)
      ∧ ((cs "/").isPrefixOf tag.name = true →
          valPRESERVED_ELEMENTS.contains (tag.name.drop 1) = true →
          (valStep model compile st tag).preserveDepth = st.preserveDepth - 1) := by
  intro model compile st tag hpd
  have hgt : st.preserveDepth > 0 := hpd
  cases hc : (cs "/").isPrefixOf tag.name with
  | true =>
    refine ⟨?_, by intro h; exact Bool.noConfusion h, ?_⟩
    · unfold valStep
      simp only [hc, if_true, if_pos hgt]
      split <;> (try split) <;> (try split) <;> rfl
    · intro _ hp
      unfold valStep
      simp only [hc, if_true, if_pos hgt, hp]
      split <;> (try split) <;> rfl
  | false =>
    refine ⟨?_, ?_, by intro h; exact Bool.noConfusion h⟩
    · unfold valStep
      simp only [hc, Bool.false_eq_true, if_false, if_pos hgt]
      split <;> rfl
    · intro _ hsc hp
      unfold valStep
      simp only [hc, Bool.false_eq_true, if_false, if_pos hgt, hsc, hp,
        Bool.not_false, Bool.true_and, if_true]
      try rfl

/-- C7 witness: inside a preserved region (depth 1), a nested `<Value>`
open increments the counter to 2 and adds no diagnostic. -/
theorem c7_preserved_region_suspends_validation_witness :
    (valStep exModelC1 noRegex { stack := [], preserveDepth := 1, diagnostics := [] }
        { name := cs "Value", line := 0, character := 1, attributes := [],
          selfClosing := false }).diagnostics = []
    ∧ (valStep exModelC1 noRegex { stack := [], preserveDepth := 1, diagnostics := [] }
        { name := cs "Value", line := 0, character := 1, attributes := [],
          selfClosing := false }).preserveDepth = 2 := by
  have h := c7_preserved_region_suspends_validation exModelC1 noRegex
    { stack := [], preserveDepth := 1, diagnostics := [] }
    { name := cs "Value", line := 0, character := 1, attributes := [], selfClosing := false }
    (by decide)
  exact ⟨h.1, h.2.1 (by decide) rfl (by decide)⟩

/-- The `ref` open step never touches the optional-nesting counter. -/
theorem rngRefOpen_depth (st : RngState) (attrs : List (Str × Str)) :
    (rngRefOpen st attrs).optionalDepth = st.optionalDepth := by
  unfold rngRefOpen
  cases hcd : st.currentDefine
  all_goals simp only [hcd]
  all_goals repeat' split
  all_goals rfl

/-- The `documentation` close step never touches the counter. -/
theorem rngDocClose_depth (st : RngState) :
    (rngDocClose st).optionalDepth = st.optionalDepth := by
  unfold rngDocClose
  dsimp only
  repeat' split
  all_goals rfl

/-- No open-tag case other than `optional`/`zeroOrMore` changes the
optional-nesting counter. -/
theorem rngOpenDispatch_depth (st : RngState) (tag : Str) (attrs : List (Str × Str))
    (hno : tag ≠ cs "optional") (hnz : tag ≠ cs "zeroOrMore") :
    (rngOpenDispatch st tag attrs).optionalDepth = st.optionalDepth := by
  unfold rngOpenDispatch
  by_cases h1 : tag = cs "grammar"
  · rw [if_pos h1]; split <;> rfl
  rw [if_neg h1]
  by_cases h2 : tag = cs "define"
  · rw [if_pos h2]
  rw [if_neg h2]
  by_cases h3 : tag = cs "start"
  · rw [if_pos h3]
  rw [if_neg h3]
  by_cases h4 : tag = cs "element"
  · rw [if_pos h4]
    cases st.currentDefine
    all_goals repeat' split
    all_goals rfl
  rw [if_neg h4]
  by_cases h5 : tag = cs "attribute"
  · rw [if_pos h5]
  rw [if_neg h5]
  by_cases h6 : tag = cs "ref"
  · rw [if_pos h6]; exact rngRefOpen_depth st attrs
  rw [if_neg h6]
  rw [if_neg (not_or.mpr ⟨hno, hnz⟩)]
  by_cases h7 : tag = cs "oneOrMore"
  · rw [if_pos h7]
  rw [if_neg h7]
  by_cases h8 : tag = cs "text"
  · rw [if_pos h8]
    cases st.currentDefine
    all_goals repeat' split
    all_goals rfl
  rw [if_neg h8]
  by_cases h9 : tag = cs "documentation"
  · rw [if_pos h9]
  rw [if_neg h9]
  by_cases h10 : tag = cs "value"
  · rw [if_pos h10]
  rw [if_neg h10]
  by_cases h11 : tag = cs "param"
  · rw [if_pos h11]; split <;> rfl
  rw [if_neg h11]

/-- No close-tag case other than `optional`/`zeroOrMore` changes the
optional-nesting counter. -/
theorem rngCloseDispatch_depth (st : RngState) (tag : Str)
    (hno : tag ≠ cs "optional") (hnz : tag ≠ cs "zeroOrMore") :
    (rngCloseDispatch st tag).optionalDepth = st.optionalDepth := by
  unfold rngCloseDispatch
  by_cases h1 : tag = cs "define"
  · rw [if_pos h1]
    cases st.currentDefine
    all_goals repeat' split
    all_goals rfl
  rw [if_neg h1]
  by_cases h2 : tag = cs "attribute"
  · rw [if_pos h2]
    cases st.currentAttribute <;> cases st.currentDefine
    all_goals repeat' split
    all_goals rfl
  rw [if_neg h2]
  rw [if_neg (not_or.mpr ⟨hno, hnz⟩)]
  by_cases h3 : tag = cs "documentation"
  · rw [if_pos h3]; exact rngDocClose_depth st
  rw [if_neg h3]
  by_cases h4 : tag = cs "value"
  · rw [if_pos h4]
  rw [if_neg h4]
  by_cases h5 : tag = cs "param"
  · rw [if_pos h5]
    repeat' split
    all_goals rfl
  rw [if_neg h5]

/-- C5: the schema compiler's optional-nesting counter is incremented
exactly by `optional`/`zeroOrMore` opens and decremented exactly by
their closes; `oneOrMore` and every other construct leave it unchanged;
an attribute declaration is created with `required` true if and only if
the counter is zero at the moment the `attribute` construct opens; and
an attribute wrapped only in `oneOrMore` therefore still compiles as
required. -/
theorem c5_required_governed_by_optional_nesting :
    (∀ (st : RngState) (attrs : List (Str × Str)),
        (rngOpen st (cs "optional") attrs).optionalDepth = st.optionalDepth + 1
        ∧ (rngOpen st (cs "zeroOrMore") attrs).optionalDepth = st.optionalDepth + 1
        ∧ (rngOpen st (cs "oneOrMore") attrs).optionalDepth = st.optionalDepth
        ∧ (rngClose st (cs "optional")).optionalDepth = st.optionalDepth - 1
        ∧ (rngClose st (cs "zeroOrMore")).optionalDepth = st.optionalDepth - 1
        ∧ (rngClose st (cs "oneOrMore")).optionalDepth = st.optionalDepth)
    ∧ (∀ (st : RngState) (t : Str) (attrs : List (Str × Str)),
        localName t ≠ cs "optional" → localName t ≠ cs "zeroOrMore" →
        (rngOpen st t attrs).optionalDepth = st.optionalDepth
        ∧ (rngClose st t).optionalDepth = st.optionalDepth)
    ∧ (∀ (st : RngState) (attrs : List (Str × Str)),
        (rngOpen st (cs "attribute") attrs).currentAttribute
          = some { name := attrsGet attrs (cs "name"), documentation := [],
                   required := decide (st.optionalDepth = 0), values := none,
                   pattern := none })
    ∧ mapGet (parseRngEvents oneOrMoreExample).elements (cs "Elt")
        = some { name := cs "Elt", documentation := [],
                 attributes := [{ name := cs "a", documentation := [], required := true,
                                  values := none, pattern := none }],
                 allowedChildren := [], allowsText := false } := by
  refine ⟨fun st attrs => ⟨rfl, rfl, rfl, rfl, rfl, rfl⟩, ?_, fun st attrs => rfl, by decide⟩
  intro st t attrs hno hnz
  exact ⟨rngOpenDispatch_depth _ (localName t) attrs hno hnz,
         rngCloseDispatch_depth _ (localName t) hno hnz⟩

/-- C5 witness: opening an `element` construct leaves the counter of the
initial state at zero. -/
theorem c5_required_governed_by_optional_nesting_witness :
    (rngOpen initialRngState (cs "element") []).optionalDepth = 0
    ∧ (rngClose initialRngState (cs "element")).optionalDepth = 0 :=
  c5_required_governed_by_optional_nesting.2.1 initialRngState (cs "element") []
    (by decide) (by decide)

/-- C9 counterexample: in `<Foo  >` with no attributes typed, the caret
at offset 5 — strictly between the end of the element name (offset 4)
and the closing `>` (offset 6) — resolves to an `attributeName` context,
refuting the claim that such positions never yield `attributeName`.
(This matches the source's own documentation of `attributeName`:
"after element name, before = : `<foo |`".) -/
theorem c9_between_name_and_gt_is_attributeName :
    (analyzeDocument (cs "<Foo  >") 5).type = CursorContextType.attributeName := by
  decide

/-- C9 amended: for the unattributed tag `<Foo  >`, caret offsets inside
the element-name span (1–4) resolve to `elementHover`; offsets strictly
between the end of the name and the closing `>` (5–6) resolve to
`attributeName` with an empty attribute prefix — not to `elementHover`
or `elementOpen`. -/
theorem c9_cursor_context_in_unattributed_tag :
    ∀ (o : Nat),
      (1 ≤ o → o ≤ 4 →
        (analyzeDocument (cs "<Foo  >") o).type = CursorContextType.elementHover)
      ∧ (5 ≤ o → o ≤ 6 →
          (analyzeDocument (cs "<Foo  >") o).type = CursorContextType.attributeName
          ∧ (analyzeDocument (cs "<Foo  >") o).attributePfx = some []) := by
  intro o
  constructor
  · intro h1 h2
    interval_cases o <;> decide
  · intro h1 h2
    interval_cases o <;> decide

/-- C9 witness: the amended theorem applied at offsets 2 and 5. -/
theorem c9_cursor_context_in_unattributed_tag_witness :
    (analyzeDocument (cs "<Foo  >") 2).type = CursorContextType.elementHover
    ∧ (analyzeDocument (cs "<Foo  >") 5).type = CursorContextType.attributeName :=
  ⟨(c9_cursor_context_in_unattributed_tag 2).1 (by decide) (by decide),
   ((c9_cursor_context_in_unattributed_tag 5).2 (by decide) (by decide)).1⟩

/-- C10: the allowed-values check is skipped entirely when the attribute
value literal is empty: `attrValueCheck` emits nothing for an empty
value whatever the declaration and oracle, and the full validator
accepts `<Layout a="">` against a model where `a` only allows `"x"`. -/
theorem c10_empty_attribute_value_never_invalid :
    (∀ (compile : RegexTester) (attrDecl : AttributeDeclaration) (attrName : Str)
        (line character : Nat),
        attrValueCheck compile attrDecl attrName
          { value := [], line := line, character := character } = [])
    ∧ validateDocument noRegex (cs "<Layout a=\"\"></Layout>") exModelA = [] := by
  constructor
  · intro compile attrDecl attrName line character
    obtain ⟨nm, doc, rq, vls, pat⟩ := attrDecl
    unfold attrValueCheck
    cases vls <;> simp
  · decide

end Speedata
